import Mathlib

/-!
Verification of the roller-coaster track/physics engine.

This file embeds, over the real numbers, the track-geometry code of
`client/src/lib/trackUtils.ts` (together with the parts of three.js's
`CatmullRomCurve3` that it calls) and the physics simulator of
`client/src/lib/physics/PhysicsEngine.ts`, and proves or refutes the
frozen specification claims about them.

Conventions of the embedding:
* JavaScript floating-point numbers are modelled as real numbers.
* `x / 0 = 0` in Lean where JavaScript would produce `NaN`/`Infinity`;
  each such spot is reached only in degenerate cases, which are treated
  explicitly where a claim depends on them.
* Array accesses use `List.getD` with a junk default; every access made
  by the original code on the inputs considered here is in bounds.
* three.js `Vector3.normalize` divides by `length() || 1`, hence maps the
  zero vector to itself (`threeNormalize`); the physics engine's own
  `Vec3.normalize` returns `(0,1,0)` for lengths `< 1e-10` (`pvNormalize`).
-/

noncomputable section

namespace RC

attribute [local instance] Classical.propDecidable

/-- Sign function matching JavaScript `Math.sign` on real inputs. -/
def jsSign (x : ℝ) : ℝ := if 0 < x then 1 else if x < 0 then -1 else 0

/-- Truncation toward zero, matching JavaScript number-to-integer truncation. -/
def rtrunc (x : ℝ) : ℤ := if 0 ≤ x then ⌊x⌋ else ⌈x⌉

/-- Remainder with the sign convention of the JavaScript `%` operator. -/
def jsRem (a b : ℝ) : ℝ := a - b * (rtrunc (a / b) : ℝ)

/-- 3D vector over the reals, modelling both `THREE.Vector3` and the
physics engine's `Vec3` data. -/
structure Vec3 where
  x : ℝ
  y : ℝ
  z : ℝ

namespace Vec3

def add (a b : Vec3) : Vec3 := ⟨a.x + b.x, a.y + b.y, a.z + b.z⟩

def sub (a b : Vec3) : Vec3 := ⟨a.x - b.x, a.y - b.y, a.z - b.z⟩

def scale (a : Vec3) (s : ℝ) : Vec3 := ⟨a.x * s, a.y * s, a.z * s⟩

def dot (a b : Vec3) : ℝ := a.x * b.x + a.y * b.y + a.z * b.z

def cross (a b : Vec3) : Vec3 :=
  ⟨a.y * b.z - a.z * b.y, a.z * b.x - a.x * b.z, a.x * b.y - a.y * b.x⟩

def length (a : Vec3) : ℝ := Real.sqrt (a.dot a)

def distanceTo (a b : Vec3) : ℝ := (a.sub b).length

def lerp (a b : Vec3) (t : ℝ) : Vec3 := a.add ((b.sub a).scale t)

end Vec3

/-- Zero vector. -/
def vzero : Vec3 := ⟨0, 0, 0⟩

/-- three.js `Vector3.normalize`: divides by `length() || 1`, so the zero
vector is returned unchanged. -/
def threeNormalize (v : Vec3) : Vec3 :=
  if v.length = 0 then v else v.scale (1 / v.length)

/-- The physics engine's `Vec3.normalize`: returns `(0,1,0)` when the
length is below `1e-10`. -/
def pvNormalize (v : Vec3) : Vec3 :=
  if v.length < 1e-10 then ⟨0, 1, 0⟩ else v.scale (1 / v.length)

/-! ## three.js CatmullRomCurve3 (curve type "catmullrom", tension 0.5)

Embedding of `CatmullRomCurve3.getPoint` and `Curve.getTangent` as used by
`trackUtils.ts` via `getTrackCurve`. -/

/-- `CubicPoly.calc` after `init(x0, x1, t0, t1)`. -/
def cubicCalc (x0 x1 t0 t1 w : ℝ) : ℝ :=
  x0 + t0 * w + (-3 * x0 + 3 * x1 - 2 * t0 - t1) * w ^ 2 +
    (2 * x0 - 2 * x1 + t0 + t1) * w ^ 3

/-- `CubicPoly.initCatmullRom` followed by `calc`, one coordinate. -/
def catmullComp (p0 p1 p2 p3 tension w : ℝ) : ℝ :=
  cubicCalc p1 p2 (tension * (p2 - p0)) (tension * (p3 - p1)) w

/-- Data of a `THREE.CatmullRomCurve3` with curve type "catmullrom". -/
structure Curve3 where
  points : List Vec3
  closed : Bool
  tension : ℝ

/-- Indexing used by `getPoint`: `points[i % l]` (all actual accesses have
a nonnegative index after the adjustments below). -/
def curveIdx (c : Curve3) (i : ℤ) : Vec3 :=
  c.points.getD (Int.tmod i (c.points.length : ℤ)).toNat vzero

/-- `CatmullRomCurve3.getPoint`. -/
def curveGetPoint (c : Curve3) (t : ℝ) : Vec3 :=
  let l : ℕ := c.points.length
  let segs : ℤ := (l : ℤ) - (if c.closed then 0 else 1)
  let p : ℝ := (segs : ℝ) * t
  let ip0 : ℤ := ⌊p⌋
  let w0 : ℝ := p - (ip0 : ℝ)
  let ipw : ℤ × ℝ :=
    if c.closed then
      (if 0 < ip0 then ip0 else ip0 + ((ip0.natAbs / l : ℕ) + 1) * (l : ℤ), w0)
    else if w0 = 0 ∧ ip0 = (l : ℤ) - 1 then ((l : ℤ) - 2, 1)
    else (ip0, w0)
  let ip : ℤ := ipw.1
  let w : ℝ := ipw.2
  let pt0 : Vec3 :=
    if c.closed ∨ 0 < ip then curveIdx c (ip - 1)
    else ((c.points.getD 0 vzero).sub (c.points.getD 1 vzero)).add (c.points.getD 0 vzero)
  let pt1 : Vec3 := curveIdx c ip
  let pt2 : Vec3 := curveIdx c (ip + 1)
  let pt3 : Vec3 :=
    if c.closed ∨ ip + 2 < (l : ℤ) then curveIdx c (ip + 2)
    else ((c.points.getD (l - 1) vzero).sub (c.points.getD (l - 2) vzero)).add
      (c.points.getD (l - 1) vzero)
  ⟨catmullComp pt0.x pt1.x pt2.x pt3.x c.tension w,
   catmullComp pt0.y pt1.y pt2.y pt3.y c.tension w,
   catmullComp pt0.z pt1.z pt2.z pt3.z c.tension w⟩

/-- `Curve.getTangent`: central difference with `delta = 0.0001`, clamped
to `[0,1]`, then normalized. -/
def curveGetTangent (c : Curve3) (t : ℝ) : Vec3 :=
  let delta : ℝ := 0.0001
  let t1 : ℝ := if t - delta < 0 then 0 else t - delta
  let t2 : ℝ := if 1 < t + delta then 1 else t + delta
  threeNormalize ((curveGetPoint c t2).sub (curveGetPoint c t1))

namespace TU

/-! ## trackUtils.ts -/

/-- `TrackPoint` from the store (`useRollerCoaster.tsx`): the fields read
by `trackUtils.ts`. -/
structure TrackPoint where
  id : String
  position : Vec3
  tilt : ℝ

/-- `LoopSegment` from the store. -/
structure LoopSegment where
  id : String
  entryPointId : String
  radius : ℝ
  pitch : ℝ

/-- `BarrelRollFrame`. -/
structure BarrelRollFrame where
  entryPos : Vec3
  forward : Vec3
  up : Vec3
  right : Vec3
  radius : ℝ
  pitch : ℝ

/-- Discriminant of `TrackSection.type` (`"spline" | "roll"`). -/
inductive SectionType where
  | spline
  | roll
deriving DecidableEq

/-- `TrackSection`. Optional fields mirror the optional TS fields. -/
structure TrackSection where
  type : SectionType
  startProgress : ℝ
  endProgress : ℝ
  arcLength : ℝ
  rollFrame : Option BarrelRollFrame
  splineStartT : Option ℝ
  splineEndT : Option ℝ
  pointIndex : Option ℕ

/-- `TrackSample` (trackUtils version). -/
structure TrackSample where
  point : Vec3
  tangent : Vec3
  up : Vec3
  normal : Vec3
  inRoll : Bool
  tilt : ℝ

/-- Junk values for out-of-range `getD` accesses (never reached on the
inputs considered in this file). -/
def junkPoint : TrackPoint := ⟨"", vzero, 0⟩

def junkSection : TrackSection := ⟨SectionType.spline, 0, 0, 0, none, none, none, none⟩

/-- `getTrackCurve`: null for fewer than 2 points, otherwise the
Catmull-Rom curve with tension 0.5. -/
def getTrackCurve (trackPoints : List TrackPoint) (isLooped : Bool) : Option Curve3 :=
  if trackPoints.length < 2 then none
  else some ⟨trackPoints.map (fun p => p.position), isLooped, 0.5⟩

/-- The curve object built by `getTrackCurve` for at least two points. -/
def mkCurve (trackPoints : List TrackPoint) (isLooped : Bool) : Curve3 :=
  ⟨trackPoints.map (fun p => p.position), isLooped, 0.5⟩

def twoPi : ℝ := 2 * Real.pi

/-- Eased rotation angle `θ(t) = 2π (t − sin(2π t) / 2π)`. -/
def loopTheta (t : ℝ) : ℝ := twoPi * (t - Real.sin (twoPi * t) / twoPi)

/-- `dθ/dt = 2π (1 − cos(2π t))`. -/
def loopDTheta (t : ℝ) : ℝ := twoPi * (1 - Real.cos (twoPi * t))

/-- Unnormalized tangent (the `t`-derivative of the loop position) inside
`sampleVerticalLoopAnalytically`. -/
def loopVelocity (f : BarrelRollFrame) (t : ℝ) : Vec3 :=
  ((f.forward.scale (f.pitch + f.radius * Real.cos (loopTheta t) * loopDTheta t)).add
    (f.up.scale (f.radius * Real.sin (loopTheta t) * loopDTheta t))).add
    (f.right.scale (f.radius * 0.4 * Real.cos (loopTheta t) * loopDTheta t))

/-- Output record of `sampleVerticalLoopAnalytically`. -/
structure LoopSampleOut where
  point : Vec3
  tangent : Vec3
  up : Vec3
  normal : Vec3

/-- `sampleVerticalLoopAnalytically`. -/
def sampleVerticalLoopAnalytically (f : BarrelRollFrame) (t : ℝ) : LoopSampleOut :=
  let theta := loopTheta t
  let point :=
    ((f.entryPos.add (f.forward.scale (f.pitch * t + f.radius * Real.sin theta))).add
      (f.up.scale (f.radius * (1 - Real.cos theta)))).add
      (f.right.scale (f.radius * 0.4 * Real.sin theta))
  let tangent := threeNormalize (loopVelocity f t)
  let rotatedUp :=
    threeNormalize ((f.up.scale (Real.cos theta)).add (f.forward.scale (-Real.sin theta)))
  ⟨point, tangent, rotatedUp, f.right⟩

/-- `computeRollFrame`. -/
def computeRollFrame (spline : Curve3) (splineT radius pitch : ℝ) (rollOffset : Vec3) :
    BarrelRollFrame :=
  let entryPos := (curveGetPoint spline splineT).add rollOffset
  let forward := threeNormalize (curveGetTangent spline splineT)
  let worldUp : Vec3 := ⟨0, 1, 0⟩
  let upDot := worldUp.dot forward
  let u1 := worldUp.sub (forward.scale upDot)
  let entryUp :=
    if 0.001 < u1.length then threeNormalize u1
    else
      let e : Vec3 := ⟨1, 0, 0⟩
      threeNormalize (e.sub (forward.scale (e.dot forward)))
  let right := threeNormalize (forward.cross entryUp)
  ⟨entryPos, forward, entryUp, right, radius, pitch⟩

/-- `computeRollArcLength`: chord sum over 100 sub-samples. -/
def computeRollArcLength (radius pitch : ℝ) : ℝ :=
  Finset.sum (Finset.range 100) fun i =>
    let t1 : ℝ := (i : ℝ) / 100
    let t2 : ℝ := ((i : ℝ) + 1) / 100
    let dTheta := loopTheta t2 - loopTheta t1
    let dForward := pitch / 100
    let dRadial := radius * Real.sqrt (dTheta * dTheta)
    Real.sqrt (dForward * dForward + dRadial * dRadial)

/-- Lookup in the `loopMap` built by `Map.set` over `loopSegments` (later
entries with the same key overwrite earlier ones). -/
def loopFind (segs : List LoopSegment) (pid : String) : Option LoopSegment :=
  segs.foldl (fun acc s => if s.entryPointId = pid then some s else acc) none

/-- Arc length of one spline sub-segment (`subSamples = 10` chords). -/
def splineSegLength (c : Curve3) (t0 t1 : ℝ) : ℝ :=
  Finset.sum (Finset.range 10) fun s =>
    let a := t0 + ((s : ℝ) / 10) * (t1 - t0)
    let b := t0 + (((s : ℝ) + 1) / 10) * (t1 - t0)
    (curveGetPoint c a).distanceTo (curveGetPoint c b)

/-- Loop state of the section-building pass of `buildTrackSections`.
The locals `prevTangent`/`prevUp` of the original loop are dead state:
they are updated but never read into any produced section (the roll frame
uses the world-up construction of `computeRollFrame`), so they are
omitted here. -/
structure BuildSt where
  sections : List TrackSection
  acc : ℝ
  rollOffset : Vec3

/-- One iteration of the section-building loop. -/
def buildStep (pts : List TrackPoint) (loops : List LoopSegment) (c : Curve3)
    (looped : Bool) (numPoints totalSegs : ℕ) (st : BuildSt) (i : ℕ) : BuildSt :=
  let st1 : BuildSt :=
    match loopFind loops (pts.getD i junkPoint).id with
    | some seg =>
        let frame := computeRollFrame c ((i : ℝ) / (totalSegs : ℝ)) seg.radius seg.pitch
          st.rollOffset
        let ral := computeRollArcLength seg.radius seg.pitch
        ⟨st.sections ++ [⟨SectionType.roll, 0, 0, ral, some frame, none, none, some i⟩],
         st.acc + ral,
         st.rollOffset.add (frame.forward.scale seg.pitch)⟩
    | none => st
  if numPoints - 1 ≤ i ∧ looped = false then st1
  else
    let t0 : ℝ := (i : ℝ) / (totalSegs : ℝ)
    let t1 : ℝ := ((i : ℝ) + 1) / (totalSegs : ℝ)
    let len := splineSegLength c t0 t1
    ⟨st1.sections ++ [⟨SectionType.spline, 0, 0, len, none, some t0, some t1, some i⟩],
     st1.acc + len,
     st1.rollOffset⟩

/-- Progress-range assignment pass (`runningLength` sweep). -/
def assignRanges (total : ℝ) : ℝ → List TrackSection → List TrackSection
  | _, [] => []
  | run, s :: rest =>
      { s with startProgress := run / total, endProgress := (run + s.arcLength) / total } ::
        assignRanges total (run + s.arcLength) rest

/-- Section lookup loop of `sampleHybridTrack`. -/
def findSection (p : ℝ) : List TrackSection → Option TrackSection
  | [] => none
  | s :: rest => if s.startProgress ≤ p ∧ p < s.endProgress then some s else findSection p rest

/-- Section choice of `sampleHybridTrack`: the matching section, else the
last section of the list. -/
def chooseSection (p : ℝ) (l : List TrackSection) : Option TrackSection :=
  match findSection p l with
  | some s => some s
  | none => l.getLast?

/-- The spline branch of `sampleHybridTrack` (given the unwrapped
`splineStartT`/`splineEndT`, already combined into `splineT`). -/
def splineBranch (spline : Curve3) (loopSegments : List LoopSegment)
    (trackPoints : List TrackPoint) (isLooped : Bool) (pointIndex : Option ℕ)
    (splineT : ℝ) : TrackSample :=
  let point := curveGetPoint spline splineT
  let tangent := threeNormalize (curveGetTangent spline splineT)
  let numPoints := trackPoints.length
  let totalSegs : ℕ := if isLooped then numPoints else numPoints - 1
  let totalLoopOffset :=
    (List.range numPoints).foldl
      (fun acc i =>
        match loopFind loopSegments (trackPoints.getD i junkPoint).id with
        | some seg =>
            acc.add ((threeNormalize (curveGetTangent spline ((i : ℝ) / (totalSegs : ℝ)))).scale
              seg.pitch)
        | none => acc)
      vzero
  let pj := pointIndex.getD 0
  let rollOffset :=
    (List.range numPoints).foldl
      (fun acc i =>
        if i ≤ pj then
          match loopFind loopSegments (trackPoints.getD i junkPoint).id with
          | some seg =>
              acc.add ((threeNormalize (curveGetTangent spline ((i : ℝ) / (totalSegs : ℝ)))).scale
                seg.pitch)
          | none => acc
        else acc)
      vzero
  let point1 := point.add rollOffset
  let point2 := if isLooped then point1.add (totalLoopOffset.scale (-splineT)) else point1
  let worldUp : Vec3 := ⟨0, 1, 0⟩
  let right0 := tangent.cross worldUp
  if 0.01 < right0.length then
    let right := threeNormalize right0
    let up := threeNormalize (right.cross tangent)
    let normal := threeNormalize (tangent.cross up)
    ⟨point2, tangent, up, normal, false, 0⟩
  else
    let u0 := worldUp.sub (tangent.scale (worldUp.dot tangent))
    let up :=
      if 0.001 < u0.length then threeNormalize u0
      else
        let e : Vec3 := ⟨1, 0, 0⟩
        threeNormalize (e.sub (tangent.scale (e.dot tangent)))
    let normal := threeNormalize (tangent.cross up)
    ⟨point2, tangent, up, normal, false, 0⟩

/-- `sampleHybridTrack`. -/
def sampleHybridTrack (progress : ℝ) (sections : List TrackSection) (spline : Curve3)
    (loopSegments : List LoopSegment) (trackPoints : List TrackPoint) (isLooped : Bool) :
    Option TrackSample :=
  if sections = [] then none
  else
    let p := max 0 (min progress 0.9999)
    match chooseSection p sections with
    | none => none
    | some sec =>
        let localT := (p - sec.startProgress) / (sec.endProgress - sec.startProgress)
        match sec.type, sec.rollFrame with
        | SectionType.roll, some frame =>
            let s := sampleVerticalLoopAnalytically frame localT
            some ⟨s.point, s.tangent, s.up, s.normal, true, 0⟩
        | _, _ =>
            match sec.splineStartT, sec.splineEndT with
            | some s0, some s1 =>
                some (splineBranch spline loopSegments trackPoints isLooped sec.pointIndex
                  (s0 + localT * (s1 - s0)))
            | _, _ => none

/-- State of the first-peak scan loop of `buildTrackSections` (`maxHeight`
is `none` for the initial `-Infinity`). -/
def peakLoop (f : ℝ → Option TrackSample) :
    List ℕ → Option ℝ → ℝ → Bool → ℝ
  | [], _, peak, _ => peak
  | k :: ks, maxH, peak, climb =>
      let p : ℝ := (k : ℝ) / 100
      match f p with
      | none => peakLoop f ks maxH peak climb
      | some s =>
          let climb1 : Bool := if 0.1 < s.tangent.y then true else climb
          let better : Prop :=
            match maxH with
            | none => True
            | some h => h < s.point.y
          let maxH1 := if climb1 = true ∧ better then some s.point.y else maxH
          let peak1 := if climb1 = true ∧ better then p else peak
          if climb1 = true ∧ s.tangent.y < -0.1 ∧ peak1 < p then peak1
          else peakLoop f ks maxH1 peak1 climb1

/-- The first-peak scan: `p` walks `0, 0.01, ..., 0.5` (51 grid points),
starting from `maxHeight = -Infinity`, `peakProgress = 0.2`,
`foundClimb = false`. -/
def peakScan (f : ℝ → Option TrackSample) : ℝ :=
  peakLoop f (List.range 51) none 0.2 false

/-- Return type of `buildTrackSections`. -/
structure BuildOut where
  sections : List TrackSection
  totalArcLength : ℝ
  firstPeakProgress : ℝ

/-- `buildTrackSections`. -/
def buildTrackSections (trackPoints : List TrackPoint) (loopSegments : List LoopSegment)
    (isLooped : Bool) : BuildOut :=
  if trackPoints.length < 2 then ⟨[], 0, 0.2⟩
  else
    let c := mkCurve trackPoints isLooped
    let numPoints := trackPoints.length
    let totalSegs : ℕ := if isLooped then numPoints else numPoints - 1
    let st := (List.range numPoints).foldl
      (buildStep trackPoints loopSegments c isLooped numPoints totalSegs) ⟨[], 0, vzero⟩
    let secs := assignRanges st.acc 0 st.sections
    let peak := peakScan fun p => sampleHybridTrack p secs c loopSegments trackPoints isLooped
    ⟨secs, st.acc, peak⟩

end TU

namespace Phys

/-! ## PhysicsEngine.ts -/

def GRAVITY : ℝ := 9.80665

def AIR_DENSITY : ℝ := 1.204

def CAR_MASS : ℝ := 500

def PASSENGER_MASS : ℝ := 75

def PASSENGERS : ℝ := 4

def CAR_FRONTAL_AREA : ℝ := 1.5

def CAR_DRAG_COEFFICIENT : ℝ := 0.35

def ROLLING_RESISTANCE_COEF : ℝ := 0.005

def CHAIN_LIFT_SPEED : ℝ := 2.5

def CHAIN_LIFT_ACCELERATION : ℝ := 0.5

def MAX_VERTICAL_G : ℝ := 4.5

def MIN_VERTICAL_G : ℝ := -1.5

def MAX_LATERAL_G : ℝ := 1.8

def MAX_SPEED : ℝ := 50

def MIN_SPEED : ℝ := 0.1

/-- `TrackPointInput`: the fields consumed by `TrackSpline`. -/
structure TrackPointInput where
  position : Vec3
  tilt : ℝ

/-- `TrackSample` (PhysicsEngine version). -/
structure PTrackSample where
  position : Vec3
  tangent : Vec3
  normal : Vec3
  binormal : Vec3
  curvature : ℝ
  torsion : ℝ
  grade : ℝ
  bankAngle : ℝ
  arcLength : ℝ

/-- Junk sample for out-of-range accesses. -/
def junkSample : PTrackSample := ⟨vzero, vzero, vzero, vzero, 0, 0, 0, 0, 0⟩

/-- `TrackSpline` data (constructor stores points, tilts in radians, and
the looped flag; the stored `tension` is unused because
`catmullRomInterpolate` hardcodes the 0.5 coefficients). -/
structure TrackSpline where
  points : List Vec3
  tilts : List ℝ
  isLooped : Bool

/-- `TrackSpline.catmullRomInterpolate`, one coordinate (fixed 0.5
coefficients; the declared tension variable is dead). -/
def catmull05 (p0 p1 p2 p3 t : ℝ) : ℝ :=
  0.5 * (2 * p1 + (-p0 + p2) * t + (2 * p0 - 5 * p1 + 4 * p2 - p3) * t ^ 2 +
    (-p0 + 3 * p1 - 3 * p2 + p3) * t ^ 3)

/-- Point access `points[j]` (all actual accesses are in bounds). -/
def splineIdx (sp : TrackSpline) (j : ℤ) : Vec3 := sp.points.getD j.toNat vzero

/-- `TrackSpline.getControlPoints`. -/
def controlPts (sp : TrackSpline) (i : ℤ) : Vec3 × Vec3 × Vec3 × Vec3 :=
  let n : ℤ := (sp.points.length : ℤ)
  if sp.isLooped then
    (splineIdx sp (Int.tmod (Int.tmod (i - 1) n + n) n),
     splineIdx sp (Int.tmod i n),
     splineIdx sp (Int.tmod (i + 1) n),
     splineIdx sp (Int.tmod (i + 2) n))
  else
    (splineIdx sp (max 0 (i - 1)),
     splineIdx sp i,
     splineIdx sp (min (n - 1) (i + 1)),
     splineIdx sp (min (n - 1) (i + 2)))

/-- `TrackSpline.getPointRaw`. -/
def getPointRaw (sp : TrackSpline) (t : ℝ) : Vec3 :=
  if sp.points.length < 2 then vzero
  else
    let tc := max 0 (min 1 t)
    let n := sp.points.length
    let segs : ℕ := if sp.isLooped then n else n - 1
    let scaled := tc * (segs : ℝ)
    let i0 : ℤ := ⌊scaled⌋
    let iw : ℤ × ℝ := if (segs : ℤ) ≤ i0 then ((segs : ℤ) - 1, 1) else (i0, scaled - (i0 : ℝ))
    let ps := controlPts sp iw.1
    ⟨catmull05 ps.1.x ps.2.1.x ps.2.2.1.x ps.2.2.2.x iw.2,
     catmull05 ps.1.y ps.2.1.y ps.2.2.1.y ps.2.2.2.y iw.2,
     catmull05 ps.1.z ps.2.1.z ps.2.2.1.z ps.2.2.2.z iw.2⟩

/-- `TrackSpline.getTangentRaw`: central difference with
`epsilon = 0.0001`, normalized through the engine's `Vec3.normalize`. -/
def getTangentRaw (sp : TrackSpline) (t : ℝ) : Vec3 :=
  pvNormalize ((getPointRaw sp (min 1 (t + 0.0001))).sub (getPointRaw sp (max 0 (t - 0.0001))))

/-- `TrackSpline.getTiltAtT`. -/
def getTiltAtT (sp : TrackSpline) (t : ℝ) : ℝ :=
  if sp.tilts.length < 2 then 0
  else
    let n := sp.tilts.length
    let segs : ℕ := if sp.isLooped then n else n - 1
    let scaled := t * (segs : ℝ)
    let i : ℤ := ⌊scaled⌋
    let frac := scaled - (i : ℝ)
    let i1 : ℤ := min i ((n : ℤ) - 1)
    let i2 : ℤ := min (i + 1) ((n : ℤ) - 1)
    sp.tilts.getD i1.toNat 0 * (1 - frac) + sp.tilts.getD i2.toNat 0 * frac

/-- `TrackSpline.computeArcLengths`: 1000-step chord sum. -/
def totalLength (sp : TrackSpline) : ℝ :=
  if sp.points.length < 2 then 0
  else
    Finset.sum (Finset.range 1000) fun k =>
      (getPointRaw sp ((k : ℝ) / 1000)).distanceTo (getPointRaw sp (((k : ℝ) + 1) / 1000))

/-- `TrackSpline.sampleAt`. -/
def sampleAt (sp : TrackSpline) (t : ℝ) : PTrackSample :=
  let position := getPointRaw sp t
  let tangent := getTangentRaw sp t
  let t1 := max 0 (t - 0.001)
  let t2 := min 1 (t + 0.001)
  let tan1 := getTangentRaw sp t1
  let tan2 := getTangentRaw sp t2
  let dtl := (t2 - t1) * totalLength sp
  let curvatureVec := (tan2.sub tan1).scale (1 / max dtl 0.001)
  let curvature := curvatureVec.length
  let grade := tangent.y * 100
  let trackTilt := getTiltAtT sp t
  let up0 : Vec3 := ⟨0, 1, 0⟩
  let up1 :=
    if 0.001 < curvature then up0.lerp (pvNormalize curvatureVec) (min (curvature * 2) 0.5)
    else up0
  let bankAngle := trackTilt
  let up2 :=
    if 0.001 < |bankAngle| then
      (up1.scale (Real.cos bankAngle)).add
        ((pvNormalize (tangent.cross up1)).scale (Real.sin bankAngle))
    else up1
  let up := pvNormalize up2
  let binormal := pvNormalize (tangent.cross up)
  let normal := pvNormalize (binormal.cross tangent)
  ⟨position, tangent, normal, binormal, curvature, 0, grade, bankAngle, t * totalLength sp⟩

/-- `numSamples` of `precomputeSamples`. -/
def numSamples (sp : TrackSpline) : ℕ :=
  max 100 (Int.floor (totalLength sp * 100)).toNat

/-- The precomputed `samples` array (empty for fewer than 2 points,
mirroring the early return of `precomputeSamples`). -/
def samplesList (sp : TrackSpline) : List PTrackSample :=
  if sp.points.length < 2 then []
  else
    (List.range (numSamples sp + 1)).map fun i : ℕ =>
      sampleAt sp ((i : ℝ) / (numSamples sp : ℝ))

/-- `TrackSpline.getSampleAtProgress`. -/
def getSampleAtProgress (sp : TrackSpline) (progress : ℝ) : PTrackSample :=
  let pc := max 0 (min 1 progress)
  let sl := samplesList sp
  if sl.length = 0 then sampleAt sp pc
  else
    let idx := pc * ((sl.length : ℝ) - 1)
    let i : ℤ := ⌊idx⌋
    let frac := idx - (i : ℝ)
    if (sl.length : ℤ) - 1 ≤ i then sl.getD (sl.length - 1) junkSample
    else
      let s1 := sl.getD i.toNat junkSample
      let s2 := sl.getD (i.toNat + 1) junkSample
      ⟨s1.position.lerp s2.position frac,
       pvNormalize (s1.tangent.lerp s2.tangent frac),
       pvNormalize (s1.normal.lerp s2.normal frac),
       pvNormalize (s1.binormal.lerp s2.binormal frac),
       s1.curvature + (s2.curvature - s1.curvature) * frac,
       s1.torsion + (s2.torsion - s1.torsion) * frac,
       s1.grade + (s2.grade - s1.grade) * frac,
       s1.bankAngle + (s2.bankAngle - s1.bankAngle) * frac,
       s1.arcLength + (s2.arcLength - s1.arcLength) * frac⟩

/-- `TrackSpline.arcLengthToProgress`. -/
def arcLengthToProgress (sp : TrackSpline) (arcLength : ℝ) : ℝ :=
  if totalLength sp ≤ 0 then 0 else max 0 (min 1 (arcLength / totalLength sp))

/-- `PhysicsState`. -/
structure PhysicsState where
  position : Vec3
  velocity : Vec3
  speed : ℝ
  progress : ℝ
  arcLength : ℝ
  acceleration : Vec3
  netForce : Vec3
  gForceVertical : ℝ
  gForceLateral : ℝ
  gForceLongitudinal : ℝ
  gForceTotal : ℝ
  trackSample : PTrackSample
  isOnChainLift : Bool
  isInLoop : Bool
  isBraking : Bool
  isAirtime : Bool
  kineticEnergy : ℝ
  potentialEnergy : ℝ
  totalEnergy : ℝ

/-- Default track sample stored in a fresh state. -/
def defaultSample : PTrackSample := ⟨vzero, ⟨1, 0, 0⟩, ⟨0, 1, 0⟩, ⟨0, 0, 1⟩, 0, 0, 0, 0, 0⟩

/-- `createDefaultState`. -/
def createDefaultState : PhysicsState :=
  ⟨vzero, vzero, 0, 0, 0, vzero, vzero, 1, 0, 0, 1, defaultSample,
   false, false, false, false, 0, 0, 0⟩

/-- `RollerCoasterPhysics` instance data. -/
structure Engine where
  spline : Option TrackSpline
  state : PhysicsState
  mass : ℝ
  hasChainLift : Bool
  chainLiftEndProgress : ℝ

/-- The engine as built by the constructor. -/
def mkEngine : Engine :=
  ⟨none, createDefaultState, CAR_MASS + PASSENGER_MASS * PASSENGERS, false, 0.2⟩

/-- Junk input point for out-of-range accesses. -/
def junkTPI : TrackPointInput := ⟨vzero, 0⟩

/-- `setTrack`. -/
def setTrack (e : Engine) (trackPoints : List TrackPointInput) (isLooped : Bool) : Engine :=
  if trackPoints.length < 2 then { e with spline := none }
  else
    let sp : TrackSpline :=
      ⟨trackPoints.map (fun p => p.position),
       trackPoints.map (fun p => p.tilt * Real.pi / 180), isLooped⟩
    let e1 := { e with spline := some sp }
    if e.hasChainLift = true ∧ 2 < trackPoints.length then
      let bound : ℕ :=
        min trackPoints.length (Int.floor ((trackPoints.length : ℝ) * 0.5)).toNat
      let scan :=
        (List.range' 1 (bound - 1)).foldl
          (fun (acc : ℝ × ℕ) i =>
            if acc.1 < (trackPoints.getD i junkTPI).position.y then
              ((trackPoints.getD i junkTPI).position.y, i)
            else acc)
          ((trackPoints.getD 0 junkTPI).position.y, 0)
      { e1 with chainLiftEndProgress := ((scan.2 : ℝ) + 1) / (trackPoints.length : ℝ) }
    else e1

/-- `setChainLift`. -/
def setChainLift (e : Engine) (enabled : Bool) : Engine := { e with hasChainLift := enabled }

/-- `reset`. -/
def reset (e : Engine) : Engine :=
  match e.spline with
  | none => { e with state := createDefaultState }
  | some sp =>
      let sample := getSampleAtProgress sp 0
      let pe := e.mass * GRAVITY * sample.position.y
      { e with
          state := { createDefaultState with
            position := sample.position
            trackSample := sample
            potentialEnergy := pe
            totalEnergy := pe } }

/-- `setSpeed`. -/
def setSpeed (e : Engine) (speed : ℝ) : Engine :=
  let sp1 := max 0 (min MAX_SPEED speed)
  let st1 := { e.state with speed := sp1 }
  let st2 :=
    if e.spline.isSome then { st1 with velocity := st1.trackSample.tangent.scale st1.speed }
    else st1
  let st3 := { st2 with kineticEnergy := 0.5 * e.mass * sp1 * sp1 }
  { e with state := { st3 with totalEnergy := st3.kineticEnergy + st3.potentialEnergy } }

/-- Return record of `calculateForces`. -/
structure Forces where
  gravity : Vec3
  drag : Vec3
  friction : Vec3
  normal : Vec3
  centripetal : Vec3
  chainLift : Vec3

/-- `calculateForces` (reads `state.isOnChainLift` from the engine passed
in, which inside `stepInternal` already carries the updated flag). -/
def calculateForces (e : Engine) (sample : PTrackSample) (speed : ℝ) : Forces :=
  let g := GRAVITY
  let gravity : Vec3 := ⟨0, -(e.mass * g), 0⟩
  let dragMagnitude :=
    0.5 * AIR_DENSITY * CAR_FRONTAL_AREA * CAR_DRAG_COEFFICIENT * speed * speed
  let drag := sample.tangent.scale (-dragMagnitude * jsSign speed)
  let normalForce := e.mass * g * Real.cos (Real.arctan (sample.grade / 100))
  let frictionMagnitude := ROLLING_RESISTANCE_COEF * normalForce
  let friction := sample.tangent.scale (-frictionMagnitude * jsSign speed)
  let normal := sample.normal.scale normalForce
  let centripetalAccel := speed * speed * sample.curvature
  let centripetal := sample.normal.scale (-e.mass * centripetalAccel)
  let chainLift :=
    if e.state.isOnChainLift = true then
      let inclineAngle := Real.arctan (sample.grade / 100)
      let requiredForce := e.mass * g * Real.sin inclineAngle + frictionMagnitude + dragMagnitude
      sample.tangent.scale (max 0 requiredForce)
    else vzero
  ⟨gravity, drag, friction, normal, centripetal, chainLift⟩

/-- `calculateGForces`, returning (vertical, lateral, longitudinal). -/
def calculateGForces (acceleration : Vec3) (sample : PTrackSample) (speed : ℝ) : ℝ × ℝ × ℝ :=
  let g := GRAVITY
  let centripetalAccel := speed * speed * sample.curvature
  let verticalG := (g * Real.cos sample.bankAngle + centripetalAccel) / g
  let lateralG := speed * speed * sample.curvature * Real.sin sample.bankAngle / g
  let longitudinalG := -(acceleration.dot sample.tangent) / g
  (max MIN_VERTICAL_G (min MAX_VERTICAL_G verticalG),
   max (-MAX_LATERAL_G) (min MAX_LATERAL_G lateralG),
   longitudinalG)

/-- The engine after the flag updates at the top of `stepInternal`
(`trackSample`, `position`, `isOnChainLift`, `isInLoop`). -/
def withSampledFlags (e : Engine) (sample : PTrackSample) : Engine :=
  let onCL : Bool :=
    e.hasChainLift && (if e.state.progress < e.chainLiftEndProgress then true else false)
  let inLoop : Bool :=
    (if 0.1 < sample.curvature then true else false) && (if 20 < sample.grade then true else false)
  { e with
      state := { e.state with
        trackSample := sample
        position := sample.position
        isOnChainLift := onCL
        isInLoop := inLoop } }

/-- Net force of the free-running branch:
`gravity + drag + friction + chainLift`. -/
def freeNetForce (e : Engine) (sample : PTrackSample) : Vec3 :=
  let forces := calculateForces e sample e.state.speed
  ((forces.gravity.add forces.drag).add forces.friction).add forces.chainLift

/-- Semi-implicit Euler speed update of the free-running branch. -/
def freeSpeedEuler (e : Engine) (sample : PTrackSample) (dt : ℝ) : ℝ :=
  e.state.speed + (freeNetForce e sample).dot sample.tangent / e.mass * dt

/-- Free-running speed after the energy-overshoot correction. -/
def freeSpeedCorrected (e : Engine) (sample : PTrackSample) (dt : ℝ) : ℝ :=
  let s1 := freeSpeedEuler e sample dt
  let currentPE := e.mass * GRAVITY * sample.position.y
  let currentKE := 0.5 * e.mass * s1 * s1
  if e.state.totalEnergy * 1.01 < currentPE + currentKE then
    let maxKE := e.state.totalEnergy - currentPE
    if 0 < maxKE then Real.sqrt (2 * maxKE / e.mass) else s1
  else s1

/-- Common tail of `stepInternal`: speed clamp, velocity, progress/arc
update, wrap for looped tracks, G-forces, energy fields. At the point
where the original assigns `acceleration`, `state.speed` has already been
set to the new speed, hence the zero numerator below. -/
def finishStep (e : Engine) (sp : TrackSpline) (sample : PTrackSample) (speed0 dt : ℝ) :
    Engine :=
  let speed := max MIN_SPEED (min MAX_SPEED speed0)
  let st1 := { e.state with speed := speed, velocity := sample.tangent.scale speed }
  let arcLength1 := st1.arcLength + speed * dt
  let progress1 := arcLengthToProgress sp arcLength1
  let pa : ℝ × ℝ :=
    if sp.isLooped = true ∧ 1 ≤ progress1 then
      (jsRem progress1 1, jsRem arcLength1 (totalLength sp))
    else (progress1, arcLength1)
  let accel := sample.tangent.scale ((speed - st1.speed) / max dt 0.001)
  let gf := calculateGForces accel sample speed
  let gTot := Real.sqrt (gf.1 ^ 2 + gf.2.1 ^ 2 + gf.2.2 ^ 2)
  { e with
      state := { st1 with
        arcLength := pa.2
        progress := pa.1
        acceleration := accel
        gForceVertical := gf.1
        gForceLateral := gf.2.1
        gForceLongitudinal := gf.2.2
        gForceTotal := gTot
        isAirtime := if gf.1 < 0.5 then true else false
        kineticEnergy := 0.5 * e.mass * speed * speed
        potentialEnergy := e.mass * GRAVITY * sample.position.y } }

/-- `stepInternal`. -/
def stepInternal (e : Engine) (dt : ℝ) : Engine :=
  match e.spline with
  | none => e
  | some sp =>
      let sample := getSampleAtProgress sp e.state.progress
      let e0 := withSampledFlags e sample
      if e0.state.isOnChainLift = true then
        let speed1 :=
          if e.state.speed < CHAIN_LIFT_SPEED then
            min (e.state.speed + CHAIN_LIFT_ACCELERATION * dt) CHAIN_LIFT_SPEED
          else CHAIN_LIFT_SPEED
        finishStep e0 sp sample speed1 dt
      else
        let nf := freeNetForce e0 sample
        let s1 := freeSpeedEuler e0 sample dt
        let currentTotal :=
          e.mass * GRAVITY * sample.position.y + 0.5 * e.mass * s1 * s1
        let e1 :=
          { e0 with
              state := { e0.state with
                netForce := nf
                totalEnergy := min e.state.totalEnergy currentTotal } }
        finishStep e1 sp sample (freeSpeedCorrected e0 sample dt) dt

/-- `step`: clamp `dt` at 50 ms and run 4 substeps. -/
def step (e : Engine) (dt : ℝ) : Engine :=
  match e.spline with
  | none => e
  | some sp =>
      if totalLength sp ≤ 0 then e
      else
        let subDt := min dt 0.05 / 4
        (List.range 4).foldl (fun acc _ => stepInternal acc subDt) e

end Phys

namespace TU

/-! ## Spec-side description of the first-peak walk (for the refinement
theorem of the chain-lift handoff claim) -/

/-- Peak recorded so far in the spec-side walk, defaulting to 0.2 when no
climb has been seen. -/
def specPeakOf : Option (ℝ × ℝ) → ℝ
  | none => 0.2
  | some b => b.1

/-- Strictly-higher test against the recorded best height (`none` plays
the role of minus infinity). -/
def specHigher : Option (ℝ × ℝ) → ℝ → Prop
  | none, _ => True
  | some b, y => b.2 < y

/-- Spec-side walk: progress runs over the grid `0, 0.01, ..., 0.5`; each
sampled point may detect the initial climb (`tangent.y > 0.1`); after the
climb is detected the walk records the progress of the running height
maximum, and stops at the first descent (`tangent.y < -0.1`) past the
recorded peak. -/
def specWalk (f : ℝ → Option TrackSample) :
    List ℕ → Bool → Option (ℝ × ℝ) → ℝ
  | [], _, best => specPeakOf best
  | k :: ks, climbed, best =>
      let p : ℝ := (k : ℝ) / 100
      match f p with
      | none => specWalk f ks climbed best
      | some s =>
          let climbed1 : Bool := if 0.1 < s.tangent.y then true else climbed
          let best1 :=
            if climbed1 = true ∧ specHigher best s.point.y then some (p, s.point.y) else best
          if climbed1 = true ∧ s.tangent.y < -0.1 ∧ specPeakOf best1 < p then specPeakOf best1
          else specWalk f ks climbed1 best1

/-- Spec-side first-peak value: the walk over the 51-point grid. -/
def firstPeakSpec (f : ℝ → Option TrackSample) : ℝ :=
  specWalk f (List.range 51) false none

/-! ## Concrete tracks used as witnesses and counterexamples -/

/-- Two-point straight track along the x axis. -/
def linePtsTU : List TrackPoint := [⟨"a", ⟨0, 0, 0⟩, 0⟩, ⟨"b", ⟨1, 0, 0⟩, 0⟩]

/-- Its Catmull-Rom curve. -/
def lineCurveTU : Curve3 := mkCurve linePtsTU false

/-- Two coincident control points (degenerate zero-length track). -/
def degenPts : List TrackPoint := [⟨"a", ⟨0, 0, 0⟩, 0⟩, ⟨"b", ⟨0, 0, 0⟩, 0⟩]

/-- Three collinear points 30 m apart with a loop (radius 5, pitch 12)
attached to the middle point. -/
def cexPts3 : List TrackPoint :=
  [⟨"a", ⟨0, 0, 0⟩, 0⟩, ⟨"b", ⟨30, 0, 0⟩, 0⟩, ⟨"c", ⟨60, 0, 0⟩, 0⟩]

def cexLoops : List LoopSegment := [⟨"L", "b", 5, 12⟩]

def cexCurve3 : Curve3 := mkCurve cexPts3 false

/-- Orthonormal entry frame with pitch 0, for the loop-sampler endpoint
counterexample. -/
def c4Frame : BarrelRollFrame := ⟨vzero, ⟨1, 0, 0⟩, ⟨0, 1, 0⟩, ⟨0, 0, 1⟩, 1, 0⟩

/-- Sample of a 2-point track used to instantiate witnesses. -/
def junkTrackSample : TrackSample := ⟨vzero, vzero, vzero, vzero, false, 0⟩

/-- A spline section covering all of `[0,1)`, used to instantiate the
orthonormality witness. -/
def c3Sec : TrackSection := ⟨SectionType.spline, 0, 1, 1, none, some 0, some 1, some 0⟩

/-- Sum of the arc lengths of the first `i` sections. -/
def cumLen (l : List TrackSection) (i : ℕ) : ℝ :=
  ((l.take i).map fun s => s.arcLength).sum

/-- Structural well-formedness of a built section: a roll section carries
a frame, a spline section carries its parameter range. -/
def WFSec (s : TrackSection) : Prop :=
  (s.type = SectionType.roll → s.rollFrame.isSome) ∧
    (s.type = SectionType.spline → s.splineStartT.isSome ∧ s.splineEndT.isSome)

/-- Orthonormality of a returned frame: tangent, up and normal are unit
length with vanishing pairwise dot products. -/
def orthoFrame (s : TrackSample) : Prop :=
  s.tangent.length = 1 ∧ s.up.length = 1 ∧ s.normal.length = 1 ∧
    s.tangent.dot s.up = 0 ∧ s.tangent.dot s.normal = 0 ∧ s.up.dot s.normal = 0

end TU

namespace Phys

/-! ## Concrete engines used as witnesses and counterexamples -/

/-- Two-point straight track along the x axis at height 0. -/
def linePtsP : List TrackPointInput := [⟨⟨0, 0, 0⟩, 0⟩, ⟨⟨1, 0, 0⟩, 0⟩]

/-- The spline `setTrack` builds from it. -/
def lineSpline : TrackSpline := ⟨[⟨0, 0, 0⟩, ⟨1, 0, 0⟩], [0, 0], false⟩

/-- The spline literally stored by `setTrack` for `linePtsP` (tilt
entries kept in the unreduced `0·π/180` form of the degree conversion, so
that the equality with the stored engine field is definitional). -/
def lineSplineStored : TrackSpline :=
  ⟨[⟨0, 0, 0⟩, ⟨1, 0, 0⟩], [0 * Real.pi / 180, 0 * Real.pi / 180], false⟩

/-- The x coordinate of the 2-point straight spline as a function of the
segment parameter (clamped-end Catmull-Rom gives a cubic, not linear,
reparameterization of the segment). -/
def xpoly (t : ℝ) : ℝ := 0.5 * (t + 3 * t ^ 2 - 2 * t ^ 3)

/-- Engine with the straight line track set, chain lift off. -/
def lineEngine : Engine := setTrack mkEngine linePtsP false

/-- The line engine after `reset`. -/
def lineEngineReset : Engine := reset lineEngine

/-- The line engine reset and moving at speed 1 (a state reachable from
`reset` by two substeps of minimum-speed clamping and coasting; the
recorded total energy is 0 while the kinetic energy is positive). -/
def c1Engine : Engine :=
  { lineEngineReset with state := { lineEngineReset.state with speed := 1 } }

/-- Line-track engine with chain lift enabled, reset, then `setSpeed 10`:
on the chain lift at a speed far above `CHAIN_LIFT_SPEED`. -/
def c5Engine : Engine :=
  setSpeed (reset (setTrack (setChainLift mkEngine true) linePtsP false)) 10

/-- Line-track engine with chain lift enabled, reset, then `setSpeed 1`. -/
def c5WitnessEngine : Engine :=
  setSpeed (reset (setTrack (setChainLift mkEngine true) linePtsP false)) 1

end Phys

/-! ## Basic vector lemmas -/

theorem Vec3.eq_iff {a b : Vec3} : a = b ↔ a.x = b.x ∧ a.y = b.y ∧ a.z = b.z := by
  constructor
  · rintro rfl; exact ⟨rfl, rfl, rfl⟩
  · rintro ⟨h1, h2, h3⟩; cases a; cases b; simp_all

theorem dot_self_nonneg (v : Vec3) : 0 ≤ v.dot v := by
  simp only [Vec3.dot]; nlinarith [sq_nonneg v.x, sq_nonneg v.y, sq_nonneg v.z]

theorem length_nonneg (v : Vec3) : 0 ≤ v.length := Real.sqrt_nonneg _

theorem dot_self_eq_zero_iff (v : Vec3) : v.dot v = 0 ↔ v = vzero := by
  simp only [Vec3.dot, Vec3.eq_iff, vzero]
  constructor
  · intro h
    refine ⟨?_, ?_, ?_⟩ <;> nlinarith [sq_nonneg v.x, sq_nonneg v.y, sq_nonneg v.z]
  · rintro ⟨h1, h2, h3⟩; rw [h1, h2, h3]; ring

theorem length_eq_zero_iff (v : Vec3) : v.length = 0 ↔ v = vzero := by
  rw [Vec3.length, Real.sqrt_eq_zero (dot_self_nonneg v), dot_self_eq_zero_iff]

theorem length_sq (v : Vec3) : v.length ^ 2 = v.dot v := Real.sq_sqrt (dot_self_nonneg v)

theorem scale_dot (v w : Vec3) (c : ℝ) : (v.scale c).dot w = c * v.dot w := by
  simp only [Vec3.scale, Vec3.dot]; ring

theorem dot_scale (v w : Vec3) (c : ℝ) : v.dot (w.scale c) = c * v.dot w := by
  simp only [Vec3.scale, Vec3.dot]; ring

theorem dot_comm (v w : Vec3) : v.dot w = w.dot v := by
  simp only [Vec3.dot]; ring

theorem threeNormalize_dot_self {v : Vec3} (h : v ≠ vzero) :
    (threeNormalize v).dot (threeNormalize v) = 1 := by
  have hl : v.length ≠ 0 := fun hc => h ((length_eq_zero_iff v).mp hc)
  rw [threeNormalize, if_neg hl]
  rw [scale_dot, dot_scale]
  have : v.dot v = v.length ^ 2 := (length_sq v).symm
  rw [this]
  field_simp
  ring

theorem length_eq_one_of_dot (v : Vec3) (h : v.dot v = 1) : v.length = 1 := by
  rw [Vec3.length, h, Real.sqrt_one]

theorem threeNormalize_length {v : Vec3} (h : v ≠ vzero) : (threeNormalize v).length = 1 :=
  length_eq_one_of_dot _ (threeNormalize_dot_self h)

theorem cross_dot_left (a b : Vec3) : (a.cross b).dot a = 0 := by
  simp only [Vec3.cross, Vec3.dot]; ring

theorem cross_dot_right (a b : Vec3) : (a.cross b).dot b = 0 := by
  simp only [Vec3.cross, Vec3.dot]; ring

theorem lagrange_cross (a b : Vec3) :
    (a.cross b).dot (a.cross b) = a.dot a * b.dot b - (a.dot b) ^ 2 := by
  simp only [Vec3.cross, Vec3.dot]; ring

theorem length_scale (v : Vec3) (c : ℝ) : (v.scale c).length = |c| * v.length := by
  rw [Vec3.length, Vec3.length]
  have h1 : (v.scale c).dot (v.scale c) = c ^ 2 * v.dot v := by
    simp only [Vec3.scale, Vec3.dot]; ring
  rw [h1, Real.sqrt_mul (sq_nonneg c), Real.sqrt_sq_eq_abs]

theorem scale_scale (v : Vec3) (a b : ℝ) : (v.scale a).scale b = v.scale (a * b) := by
  simp only [Vec3.scale, Vec3.eq_iff]; refine ⟨by ring, by ring, by ring⟩

theorem scale_zero_eq (v : Vec3) : v.scale 0 = vzero := by
  simp only [Vec3.scale, vzero, Vec3.eq_iff]; norm_num

theorem threeNormalize_scale_pos (v : Vec3) {c : ℝ} (hc : 0 < c) :
    threeNormalize (v.scale c) = threeNormalize v := by
  by_cases hv : v = vzero
  · subst hv
    have : (vzero.scale c) = vzero := by
      simp only [Vec3.scale, vzero, Vec3.eq_iff]; norm_num
    rw [this]
  · have hl : v.length ≠ 0 := fun hc2 => hv ((length_eq_zero_iff v).mp hc2)
    have hlpos : 0 < v.length := lt_of_le_of_ne (length_nonneg v) (Ne.symm hl)
    have hsl : (v.scale c).length = c * v.length := by
      rw [length_scale, abs_of_pos hc]
    have hsl0 : (v.scale c).length ≠ 0 := by
      rw [hsl]; positivity
    rw [threeNormalize, threeNormalize, if_neg hsl0, if_neg hl, hsl, scale_scale]
    congr 1
    field_simp

theorem vzero_dot (v : Vec3) : vzero.dot v = 0 := by
  simp only [vzero, Vec3.dot]; ring

theorem threeNormalize_vzero : threeNormalize vzero = vzero := by
  rw [threeNormalize, if_pos]
  rw [length_eq_zero_iff]

/-! ## Closed forms for the concrete trackUtils curves -/

namespace TU

theorem lineTU_getPoint (t : ℝ) (h0 : 0 ≤ t) (h1 : t ≤ 1) :
    curveGetPoint lineCurveTU t = ⟨t, 0, 0⟩ := by
  have hpts : lineCurveTU.points = [⟨0, 0, 0⟩, ⟨1, 0, 0⟩] := by
    simp [lineCurveTU, mkCurve, linePtsTU]
  have e0 : (Int.tmod 0 2).toNat = 0 := by decide
  have e1 : (Int.tmod 1 2).toNat = 1 := by decide
  rcases lt_or_eq_of_le h1 with hlt | heq
  · have hfl : ⌊t⌋ = 0 := by rw [Int.floor_eq_zero_iff]; exact ⟨h0, hlt⟩
    simp only [curveGetPoint, hpts, lineCurveTU, mkCurve, linePtsTU]
    norm_num [hfl, curveIdx, hpts, e0, e1, List.getD, Vec3.sub, Vec3.add, catmullComp,
      cubicCalc, Vec3.eq_iff]
  · subst heq
    simp only [curveGetPoint, hpts, lineCurveTU, mkCurve, linePtsTU]
    norm_num [curveIdx, hpts, e0, e1, List.getD, Vec3.sub, Vec3.add, catmullComp, cubicCalc,
      Vec3.eq_iff]

theorem threeNormalize_xvec {d : ℝ} (hd : 0 < d) :
    threeNormalize ⟨d, 0, 0⟩ = ⟨1, 0, 0⟩ := by
  have hl : (Vec3.mk d 0 0).length = d := by
    rw [Vec3.length]
    simp only [Vec3.dot]
    rw [show d * d + 0 * 0 + 0 * 0 = d ^ 2 by ring, Real.sqrt_sq hd.le]
  rw [threeNormalize, if_neg (by rw [hl]; exact hd.ne'), hl]
  simp only [Vec3.scale, Vec3.eq_iff]
  norm_num
  field_simp

theorem clampDelta_bounds (t : ℝ) (h0 : 0 ≤ t) (h1 : t ≤ 1) :
    (0 : ℝ) ≤ (if t - 0.0001 < 0 then 0 else t - 0.0001) ∧
      (if t - 0.0001 < 0 then (0 : ℝ) else t - 0.0001) + 0.0001 ≤
        (if 1 < t + 0.0001 then 1 else t + 0.0001) ∧
      (if 1 < t + 0.0001 then (1 : ℝ) else t + 0.0001) ≤ 1 := by
  refine ⟨?_, ?_, ?_⟩
  · split <;> linarith
  · split <;> split <;> linarith
  · split <;> linarith

theorem lineTU_getTangent (t : ℝ) (h0 : 0 ≤ t) (h1 : t ≤ 1) :
    curveGetTangent lineCurveTU t = ⟨1, 0, 0⟩ := by
  obtain ⟨ha, hab, hb⟩ := clampDelta_bounds t h0 h1
  rw [curveGetTangent]
  set a : ℝ := if t - 0.0001 < 0 then 0 else t - 0.0001 with hadef
  set b : ℝ := if 1 < t + 0.0001 then 1 else t + 0.0001 with hbdef
  have ha1 : a ≤ 1 := by linarith
  have hb0 : (0 : ℝ) ≤ b := by linarith
  rw [show (if t - (0.0001 : ℝ) < 0 then 0 else t - 0.0001) = a from rfl] at *
  rw [lineTU_getPoint a ha ha1, lineTU_getPoint b hb0 hb]
  have hsub : (Vec3.mk b 0 0).sub ⟨a, 0, 0⟩ = ⟨b - a, 0, 0⟩ := by
    simp [Vec3.sub, Vec3.eq_iff]
  rw [hsub, threeNormalize_xvec (by linarith)]

theorem getD_pair_self (v : Vec3) (k : ℕ) : List.getD [v, v] k v = v := by
  rcases k with _ | _ | k <;> simp [List.getD]

theorem degen_getPoint (t : ℝ) : curveGetPoint (mkCurve degenPts false) t = vzero := by
  have hpts : (mkCurve degenPts false).points = [vzero, vzero] := by
    simp [mkCurve, degenPts, vzero]
  simp only [curveGetPoint, hpts]
  have hidx : ∀ i : ℤ, curveIdx (mkCurve degenPts false) i = vzero := by
    intro i
    rw [curveIdx, hpts]
    exact getD_pair_self vzero _
  norm_num [hidx, hpts, List.getD, Vec3.sub, Vec3.add, vzero, catmullComp, cubicCalc,
    Vec3.eq_iff]

theorem cex3_getPoint (t : ℝ) (h0 : 0 ≤ t) (h1 : t ≤ 1) :
    curveGetPoint cexCurve3 t = ⟨60 * t, 0, 0⟩ := by
  have hpts : cexCurve3.points = [⟨0, 0, 0⟩, ⟨30, 0, 0⟩, ⟨60, 0, 0⟩] := by
    simp [cexCurve3, mkCurve, cexPts3]
  have e0 : (Int.tmod 0 3).toNat = 0 := by decide
  have e1 : (Int.tmod 1 3).toNat = 1 := by decide
  have e2 : (Int.tmod 2 3).toNat = 2 := by decide
  by_cases hhalf : t < 1 / 2
  · have hfl : ⌊(2 : ℝ) * t⌋ = 0 := by
      rw [Int.floor_eq_zero_iff]
      refine ⟨by linarith, by linarith⟩
    simp only [curveGetPoint, hpts, cexCurve3, mkCurve, cexPts3]
    norm_num [hfl, curveIdx, hpts, e0, e1, e2, List.getD, Vec3.sub, Vec3.add, catmullComp,
      cubicCalc, Vec3.eq_iff]
    ring
  · push_neg at hhalf
    rcases lt_or_eq_of_le h1 with hlt | heq
    · have hfl : ⌊(2 : ℝ) * t⌋ = 1 := by
        have : ((1 : ℤ) : ℝ) ≤ 2 * t ∧ 2 * t < (1 : ℤ) + 1 := by
          push_cast
          constructor <;> linarith
        rw [Int.floor_eq_iff]
        exact_mod_cast this
      simp only [curveGetPoint, hpts, cexCurve3, mkCurve, cexPts3]
      norm_num [hfl, curveIdx, hpts, e0, e1, e2, List.getD, Vec3.sub, Vec3.add, catmullComp,
        cubicCalc, Vec3.eq_iff]
      ring
    · subst heq
      simp only [curveGetPoint, hpts, cexCurve3, mkCurve, cexPts3]
      norm_num [curveIdx, hpts, e0, e1, e2, List.getD, Vec3.sub, Vec3.add, catmullComp,
        cubicCalc, Vec3.eq_iff]

theorem cex3_getTangent (t : ℝ) (h0 : 0 ≤ t) (h1 : t ≤ 1) :
    curveGetTangent cexCurve3 t = ⟨1, 0, 0⟩ := by
  obtain ⟨ha, hab, hb⟩ := clampDelta_bounds t h0 h1
  rw [curveGetTangent]
  set a : ℝ := if t - 0.0001 < 0 then 0 else t - 0.0001 with hadef
  set b : ℝ := if 1 < t + 0.0001 then 1 else t + 0.0001 with hbdef
  have ha1 : a ≤ 1 := by linarith
  have hb0 : (0 : ℝ) ≤ b := by linarith
  rw [cex3_getPoint a ha ha1, cex3_getPoint b hb0 hb]
  have hsub : (Vec3.mk (60 * b) 0 0).sub ⟨60 * a, 0, 0⟩ = ⟨60 * (b - a), 0, 0⟩ := by
    simp [Vec3.sub, Vec3.eq_iff]; ring
  rw [hsub, threeNormalize_xvec (by linarith)]

/-! ## Progress-range structure of `assignRanges` and `buildTrackSections` -/

theorem cumLen_zero (l : List TrackSection) : cumLen l 0 = 0 := by simp [cumLen]

theorem cumLen_cons_succ (s : TrackSection) (rest : List TrackSection) (j : ℕ) :
    cumLen (s :: rest) (j + 1) = s.arcLength + cumLen rest j := by
  simp [cumLen, List.take]

theorem assignRanges_length (total run : ℝ) (l : List TrackSection) :
    (assignRanges total run l).length = l.length := by
  induction l generalizing run with
  | nil => rfl
  | cons s rest ih => simp [assignRanges, ih]

theorem assignRanges_getD (total : ℝ) (l : List TrackSection) :
    ∀ (run : ℝ) (i : ℕ), i < l.length →
      (assignRanges total run l).getD i junkSection =
        { l.getD i junkSection with
            startProgress := (run + cumLen l i) / total
            endProgress := (run + cumLen l (i + 1)) / total } := by
  induction l with
  | nil => intro run i hi; simp at hi
  | cons s rest ih =>
      intro run i hi
      cases i with
      | zero =>
          simp [assignRanges, cumLen_zero, cumLen_cons_succ, cumLen, List.take]
      | succ j =>
          have hj : j < rest.length := by simpa using hi
          simp only [assignRanges, List.getD_cons_succ]
          rw [ih (run + s.arcLength) j hj]
          rw [cumLen_cons_succ, cumLen_cons_succ]
          ring_nf

theorem cumLen_succ_le (l : List TrackSection) (h : ∀ s ∈ l, 0 ≤ s.arcLength) (i : ℕ) :
    cumLen l i ≤ cumLen l (i + 1) := by
  induction l generalizing i with
  | nil => simp [cumLen]
  | cons s rest ih =>
      cases i with
      | zero =>
          rw [cumLen_zero, cumLen_cons_succ, cumLen_zero]
          have := h s (by simp)
          linarith
      | succ j =>
          rw [cumLen_cons_succ, cumLen_cons_succ]
          have := ih (fun x hx => h x (by simp [hx])) j
          linarith

theorem cumLen_mono (l : List TrackSection) (h : ∀ s ∈ l, 0 ≤ s.arcLength) :
    ∀ i j, i ≤ j → cumLen l i ≤ cumLen l j := by
  intro i j hij
  induction j with
  | zero => simp_all
  | succ k ih =>
      rcases Nat.lt_or_ge i (k + 1) with hlt | hge
      · exact le_trans (ih (by omega)) (cumLen_succ_le l h k)
      · have : i = k + 1 := by omega
        subst this
        rfl

theorem cumLen_full (l : List TrackSection) :
    cumLen l l.length = (l.map fun s => s.arcLength).sum := by
  simp [cumLen]

/-- Existence and uniqueness of the cell of a monotone subdivision of
`[0,1)` containing a given point. -/
theorem unique_cell (c : ℕ → ℝ) (n : ℕ) (hn : 0 < n)
    (mono : ∀ i j, i ≤ j → j ≤ n → c i ≤ c j)
    (h0 : c 0 = 0) (h1 : c n = 1) (p : ℝ) (hp0 : 0 ≤ p) (hp1 : p < 1) :
    ∃! i, i < n ∧ c i ≤ p ∧ p < c (i + 1) := by
  classical
  set S := (Finset.range n).filter (fun i => c i ≤ p) with hS
  have h0S : 0 ∈ S := by
    simp only [hS, Finset.mem_filter, Finset.mem_range]
    exact ⟨hn, by rw [h0]; exact hp0⟩
  have hSne : S.Nonempty := ⟨0, h0S⟩
  set m := S.max' hSne with hm
  have hmS : m ∈ S := S.max'_mem hSne
  have hmn : m < n := Finset.mem_range.mp (Finset.mem_filter.mp hmS).1
  have hcm : c m ≤ p := (Finset.mem_filter.mp hmS).2
  have hnext : p < c (m + 1) := by
    by_cases hend : m + 1 = n
    · rw [hend, h1]; exact hp1
    · have hlt : m + 1 < n := lt_of_le_of_ne (Nat.succ_le_of_lt hmn) hend
      by_contra hcon
      push_neg at hcon
      have hin : m + 1 ∈ S := by
        simp only [hS, Finset.mem_filter, Finset.mem_range]
        exact ⟨hlt, hcon⟩
      have := S.le_max' _ hin
      omega
  refine ⟨m, ⟨hmn, hcm, hnext⟩, ?_⟩
  rintro j ⟨hjn, hcj, hjnext⟩
  by_contra hne
  rcases lt_or_gt_of_ne hne with hlt | hgt
  · have : c (j + 1) ≤ c m := mono _ _ (by omega) hmn.le
    linarith
  · have : c (m + 1) ≤ c j := mono _ _ (by omega) hjn.le
    linarith

theorem computeRollArcLength_nonneg (radius pitch : ℝ) :
    0 ≤ computeRollArcLength radius pitch := by
  apply Finset.sum_nonneg
  intro i _
  exact Real.sqrt_nonneg _

theorem splineSegLength_nonneg (c : Curve3) (t0 t1 : ℝ) : 0 ≤ splineSegLength c t0 t1 := by
  apply Finset.sum_nonneg
  intro i _
  exact Real.sqrt_nonneg _

/-- Each `buildStep` appends zero, one or two sections, all of nonnegative
arc length and well-formed, and adds exactly their lengths to the
accumulator. -/
theorem buildStep_spec (pts : List TrackPoint) (loops : List LoopSegment) (c : Curve3)
    (looped : Bool) (numPoints totalSegs : ℕ) (st : BuildSt) (i : ℕ) :
    ∃ tail,
      (buildStep pts loops c looped numPoints totalSegs st i).sections =
          st.sections ++ tail ∧
        (∀ s ∈ tail, 0 ≤ s.arcLength ∧ WFSec s) ∧
        (buildStep pts loops c looped numPoints totalSegs st i).acc =
          st.acc + (tail.map fun s => s.arcLength).sum := by
  rw [buildStep]
  rcases hl : loopFind loops (pts.getD i junkPoint).id with _ | seg
  · by_cases hskip : numPoints ≤ i + 1 ∧ looped = false
    · exact ⟨[], by simp [hskip], by simp, by simp [hskip]⟩
    · refine ⟨[⟨SectionType.spline, 0, 0,
        splineSegLength c ((i : ℝ) / (totalSegs : ℝ)) (((i : ℝ) + 1) / (totalSegs : ℝ)),
        none, some ((i : ℝ) / (totalSegs : ℝ)), some (((i : ℝ) + 1) / (totalSegs : ℝ)),
        some i⟩], by simp [hskip], ?_, by simp [hskip]⟩
      intro s hs
      simp only [List.mem_singleton] at hs
      subst hs
      exact ⟨splineSegLength_nonneg _ _ _, by simp [WFSec], by simp [WFSec]⟩
  · by_cases hskip : numPoints ≤ i + 1 ∧ looped = false
    · refine ⟨[⟨SectionType.roll, 0, 0, computeRollArcLength seg.radius seg.pitch,
        some (computeRollFrame c ((i : ℝ) / (totalSegs : ℝ)) seg.radius seg.pitch
          st.rollOffset), none, none, some i⟩], by simp [hskip], ?_, by simp [hskip]⟩
      intro s hs
      simp only [List.mem_singleton] at hs
      subst hs
      refine ⟨computeRollArcLength_nonneg _ _, by simp [WFSec], ?_⟩
      intro hty
      simp [WFSec] at hty
    · refine ⟨[⟨SectionType.roll, 0, 0, computeRollArcLength seg.radius seg.pitch,
        some (computeRollFrame c ((i : ℝ) / (totalSegs : ℝ)) seg.radius seg.pitch
          st.rollOffset), none, none, some i⟩,
        ⟨SectionType.spline, 0, 0,
          splineSegLength c ((i : ℝ) / (totalSegs : ℝ)) (((i : ℝ) + 1) / (totalSegs : ℝ)),
          none, some ((i : ℝ) / (totalSegs : ℝ)), some (((i : ℝ) + 1) / (totalSegs : ℝ)),
          some i⟩], ?_, ?_, ?_⟩
      · simp [hskip]
      · intro s hs
        simp only [List.mem_cons, List.mem_singleton, List.not_mem_nil, or_false] at hs
        rcases hs with h | h <;> subst h
        · refine ⟨computeRollArcLength_nonneg _ _, by simp [WFSec], ?_⟩
          intro hty
          simp at hty
        · exact ⟨splineSegLength_nonneg _ _ _, by simp [WFSec], by simp [WFSec]⟩
      · simp [hskip]
        ring

/-- Fold invariant for the section-building pass. -/
theorem buildFold_spec (pts : List TrackPoint) (loops : List LoopSegment) (c : Curve3)
    (looped : Bool) (numPoints totalSegs : ℕ) :
    ∀ (ks : List ℕ) (st : BuildSt),
      (∀ s ∈ st.sections, 0 ≤ s.arcLength ∧ WFSec s) →
      st.acc = (st.sections.map fun s => s.arcLength).sum →
      (∀ s ∈ (ks.foldl (buildStep pts loops c looped numPoints totalSegs) st).sections,
          0 ≤ s.arcLength ∧ WFSec s) ∧
        (ks.foldl (buildStep pts loops c looped numPoints totalSegs) st).acc =
          (((ks.foldl (buildStep pts loops c looped numPoints totalSegs) st).sections.map
            fun s => s.arcLength).sum) ∧
        st.sections.length ≤
          (ks.foldl (buildStep pts loops c looped numPoints totalSegs) st).sections.length := by
  intro ks
  induction ks with
  | nil => intro st h1 h2; exact ⟨h1, h2, le_refl _⟩
  | cons k rest ih =>
      intro st h1 h2
      obtain ⟨tail, hsec, htail, hacc⟩ :=
        buildStep_spec pts loops c looped numPoints totalSegs st k
      have h1' : ∀ s ∈ (buildStep pts loops c looped numPoints totalSegs st k).sections,
          0 ≤ s.arcLength ∧ WFSec s := by
        rw [hsec]
        intro s hs
        rcases List.mem_append.mp hs with h | h
        · exact h1 s h
        · exact htail s h
      have h2' : (buildStep pts loops c looped numPoints totalSegs st k).acc =
          ((buildStep pts loops c looped numPoints totalSegs st k).sections.map
            fun s => s.arcLength).sum := by
        rw [hsec, hacc, h2, List.map_append, List.sum_append]
      obtain ⟨r1, r2, r3⟩ := ih _ h1' h2'
      refine ⟨r1, r2, le_trans ?_ r3⟩
      rw [hsec]
      simp

theorem buildFold_len_mono (pts : List TrackPoint) (loops : List LoopSegment) (c : Curve3)
    (looped : Bool) (numPoints totalSegs : ℕ) :
    ∀ (ks : List ℕ) (st : BuildSt),
      st.sections.length ≤
        (ks.foldl (buildStep pts loops c looped numPoints totalSegs) st).sections.length := by
  intro ks
  induction ks with
  | nil => intro st; exact le_refl _
  | cons k rest ih =>
      intro st
      obtain ⟨tail, hsec, _, _⟩ := buildStep_spec pts loops c looped numPoints totalSegs st k
      refine le_trans ?_ (ih _)
      rw [hsec]
      simp

theorem buildStep_push_len (pts : List TrackPoint) (loops : List LoopSegment) (c : Curve3)
    (looped : Bool) (numPoints totalSegs : ℕ) (st : BuildSt) (i : ℕ)
    (h : ¬(numPoints ≤ i + 1 ∧ looped = false)) :
    st.sections.length + 1 ≤
      (buildStep pts loops c looped numPoints totalSegs st i).sections.length := by
  rw [buildStep]
  rcases hl : loopFind loops (pts.getD i junkPoint).id with _ | seg <;> simp [h]

theorem build_raw_nonempty (pts : List TrackPoint) (loops : List LoopSegment) (c : Curve3)
    (looped : Bool) (totalSegs : ℕ) (h2 : 2 ≤ pts.length) :
    1 ≤ ((List.range pts.length).foldl
      (buildStep pts loops c looped pts.length totalSegs) ⟨[], 0, vzero⟩).sections.length := by
  have key : ∀ n : ℕ, 2 ≤ n →
      1 ≤ ((List.range n).foldl
        (buildStep pts loops c looped n totalSegs) ⟨[], 0, vzero⟩).sections.length := by
    intro n hn
    obtain ⟨m, rfl⟩ : ∃ m, n = m + 1 := ⟨n - 1, by omega⟩
    rw [List.range_succ_eq_map, List.foldl_cons]
    refine le_trans ?_ (buildFold_len_mono pts loops c looped (m + 1) totalSegs _ _)
    have := buildStep_push_len pts loops c looped (m + 1) totalSegs ⟨[], 0, vzero⟩ 0
      (by intro hc; omega)
    simpa using this
  exact key pts.length h2

/-- Unfolding of `buildTrackSections` past its small-input guard. -/
theorem build_eq (pts : List TrackPoint) (loops : List LoopSegment) (looped : Bool)
    (h2 : 2 ≤ pts.length) :
    buildTrackSections pts loops looped =
      ⟨assignRanges ((List.range pts.length).foldl
          (buildStep pts loops (mkCurve pts looped) looped pts.length
            (if looped then pts.length else pts.length - 1)) ⟨[], 0, vzero⟩).acc 0
          ((List.range pts.length).foldl
            (buildStep pts loops (mkCurve pts looped) looped pts.length
              (if looped then pts.length else pts.length - 1)) ⟨[], 0, vzero⟩).sections,
        ((List.range pts.length).foldl
          (buildStep pts loops (mkCurve pts looped) looped pts.length
            (if looped then pts.length else pts.length - 1)) ⟨[], 0, vzero⟩).acc,
        peakScan fun p =>
          sampleHybridTrack p
            (assignRanges ((List.range pts.length).foldl
                (buildStep pts loops (mkCurve pts looped) looped pts.length
                  (if looped then pts.length else pts.length - 1)) ⟨[], 0, vzero⟩).acc 0
              ((List.range pts.length).foldl
                (buildStep pts loops (mkCurve pts looped) looped pts.length
                  (if looped then pts.length else pts.length - 1)) ⟨[], 0, vzero⟩).sections)
            (mkCurve pts looped) loops pts looped⟩ := by
  rw [buildTrackSections, if_neg (by omega)]

/-- Core coverage result about `assignRanges` under the invariants that
the build pass establishes. -/
theorem ranges_cover_core (raw : List TrackSection) (A : ℝ)
    (hnn : ∀ s ∈ raw, 0 ≤ s.arcLength)
    (hsum : A = (raw.map fun s => s.arcLength).sum)
    (hne : 1 ≤ raw.length) (hA : 0 < A) :
    (assignRanges A 0 raw).length ≠ 0 ∧
      ((assignRanges A 0 raw).getD 0 junkSection).startProgress = 0 ∧
      ((assignRanges A 0 raw).getD ((assignRanges A 0 raw).length - 1)
        junkSection).endProgress = 1 ∧
      (∀ i, i + 1 < (assignRanges A 0 raw).length →
        ((assignRanges A 0 raw).getD (i + 1) junkSection).startProgress =
          ((assignRanges A 0 raw).getD i junkSection).endProgress) ∧
      (∀ i, i < (assignRanges A 0 raw).length →
        ((assignRanges A 0 raw).getD i junkSection).startProgress ≤
          ((assignRanges A 0 raw).getD i junkSection).endProgress) ∧
      (∀ q : ℝ, 0 ≤ q → q < 1 →
        ∃! i, i < (assignRanges A 0 raw).length ∧
          ((assignRanges A 0 raw).getD i junkSection).startProgress ≤ q ∧
          q < ((assignRanges A 0 raw).getD i junkSection).endProgress) := by
  have hlen : (assignRanges A 0 raw).length = raw.length := assignRanges_length A 0 raw
  have hget : ∀ i, i < raw.length →
      ((assignRanges A 0 raw).getD i junkSection).startProgress = cumLen raw i / A ∧
      ((assignRanges A 0 raw).getD i junkSection).endProgress = cumLen raw (i + 1) / A := by
    intro i hi
    rw [assignRanges_getD A raw 0 i hi]
    constructor <;> simp
  have hmono : ∀ i j, i ≤ j → cumLen raw i / A ≤ cumLen raw j / A := by
    intro i j hij
    exact (div_le_div_iff_of_pos_right hA).mpr (cumLen_mono raw hnn i j hij)
  have hc0 : cumLen raw 0 / A = 0 := by rw [cumLen_zero, zero_div]
  have hcn : cumLen raw raw.length / A = 1 := by
    rw [cumLen_full, ← hsum, div_self hA.ne']
  refine ⟨?_, ?_, ?_, ?_, ?_, ?_⟩
  · rw [hlen]; omega
  · rw [(hget 0 (by omega)).1, hc0]
  · rw [hlen]
    have hlt : raw.length - 1 < raw.length := by omega
    rw [(hget _ hlt).2]
    have : raw.length - 1 + 1 = raw.length := by omega
    rw [this, hcn]
  · intro i hi
    rw [hlen] at hi
    rw [(hget (i + 1) (by omega)).1, (hget i (by omega)).2]
  · intro i hi
    rw [hlen] at hi
    rw [(hget i hi).1, (hget i hi).2]
    exact hmono i (i + 1) (by omega)
  · intro q hq0 hq1
    obtain ⟨i, ⟨hin, hle, hlt⟩, huniq⟩ :=
      unique_cell (fun i => cumLen raw i / A) raw.length (by omega)
        (fun i j hij _ => hmono i j hij) hc0 hcn q hq0 hq1
    refine ⟨i, ⟨by omega, ?_, ?_⟩, ?_⟩
    · rw [(hget i hin).1]; exact hle
    · rw [(hget i hin).2]; exact hlt
    · rintro j ⟨hjn, hjle, hjlt⟩
      rw [hlen] at hjn
      refine huniq j ⟨hjn, ?_, ?_⟩
      · rw [(hget j hjn).1] at hjle; exact hjle
      · rw [(hget j hjn).2] at hjlt; exact hjlt

/-- Distance between two points on the x axis. -/
theorem dist_xvec (u v : ℝ) : (Vec3.mk u 0 0).distanceTo ⟨v, 0, 0⟩ = |u - v| := by
  rw [Vec3.distanceTo, Vec3.length]
  simp only [Vec3.sub, Vec3.dot]
  rw [show (u - v) * (u - v) + (0 - 0) * (0 - 0) + (0 - 0) * (0 - 0) = (u - v) ^ 2 by ring,
    Real.sqrt_sq_eq_abs]

/-- Chord sums on the straight 2-point curve telescope to the parameter
difference. -/
theorem lineTU_segLength (a b : ℝ) (h0 : 0 ≤ a) (hab : a ≤ b) (hb : b ≤ 1) :
    splineSegLength lineCurveTU a b = b - a := by
  rw [splineSegLength]
  have key : ∀ s ∈ Finset.range 10,
      (curveGetPoint lineCurveTU (a + ((s : ℝ) / 10) * (b - a))).distanceTo
          (curveGetPoint lineCurveTU (a + (((s : ℝ) + 1) / 10) * (b - a))) = (b - a) / 10 := by
    intro s hs
    have hs10 : (s : ℝ) ≤ 9 := by
      have := Finset.mem_range.mp hs
      exact_mod_cast Nat.lt_succ_iff.mp (by omega)
    have hsn : (0 : ℝ) ≤ (s : ℝ) := Nat.cast_nonneg s
    have hu0 : 0 ≤ a + ((s : ℝ) / 10) * (b - a) := by nlinarith
    have hu1 : a + ((s : ℝ) / 10) * (b - a) ≤ 1 := by nlinarith
    have hv0 : 0 ≤ a + (((s : ℝ) + 1) / 10) * (b - a) := by nlinarith
    have hv1 : a + (((s : ℝ) + 1) / 10) * (b - a) ≤ 1 := by nlinarith
    rw [lineTU_getPoint _ hu0 hu1, lineTU_getPoint _ hv0 hv1, dist_xvec]
    rw [abs_of_nonpos (by nlinarith)]
    ring
  rw [Finset.sum_congr rfl key, Finset.sum_const, Finset.card_range]
  ring

/-- All chords of the degenerate 2-point curve vanish. -/
theorem degen_segLength (a b : ℝ) : splineSegLength (mkCurve degenPts false) a b = 0 := by
  rw [splineSegLength]
  apply Finset.sum_eq_zero
  intro i _
  simp only [degen_getPoint, Vec3.distanceTo, Vec3.length, Vec3.sub, Vec3.dot, vzero]
  norm_num

/-- C2 (amended): for every input of at least 2 control points whose
accumulated arc length is positive, the section ranges returned by
`buildTrackSections` are contiguous, non-overlapping, begin at 0 and end
at 1, and every progress value in `[0,1)` falls in exactly one section. -/
theorem c2_section_ranges (pts : List TrackPoint) (loops : List LoopSegment) (looped : Bool)
    (h2 : 2 ≤ pts.length) (hA : 0 < (buildTrackSections pts loops looped).totalArcLength) :
    (buildTrackSections pts loops looped).sections.length ≠ 0 ∧
      ((buildTrackSections pts loops looped).sections.getD 0 junkSection).startProgress = 0 ∧
      ((buildTrackSections pts loops looped).sections.getD
        ((buildTrackSections pts loops looped).sections.length - 1)
          junkSection).endProgress = 1 ∧
      (∀ i, i + 1 < (buildTrackSections pts loops looped).sections.length →
        ((buildTrackSections pts loops looped).sections.getD (i + 1)
            junkSection).startProgress =
          ((buildTrackSections pts loops looped).sections.getD i junkSection).endProgress) ∧
      (∀ i, i < (buildTrackSections pts loops looped).sections.length →
        ((buildTrackSections pts loops looped).sections.getD i junkSection).startProgress ≤
          ((buildTrackSections pts loops looped).sections.getD i junkSection).endProgress) ∧
      (∀ q : ℝ, 0 ≤ q → q < 1 →
        ∃! i, i < (buildTrackSections pts loops looped).sections.length ∧
          ((buildTrackSections pts loops looped).sections.getD i
              junkSection).startProgress ≤ q ∧
          q < ((buildTrackSections pts loops looped).sections.getD i
            junkSection).endProgress) := by
  rw [build_eq pts loops looped h2] at hA ⊢
  obtain ⟨inv1, inv2, _⟩ :=
    buildFold_spec pts loops (mkCurve pts looped) looped pts.length
      (if looped then pts.length else pts.length - 1) (List.range pts.length)
      ⟨[], 0, vzero⟩ (by simp) (by simp)
  exact ranges_cover_core _ _ (fun s hs => (inv1 s hs).1) inv2
    (build_raw_nonempty pts loops (mkCurve pts looped) looped
      (if looped then pts.length else pts.length - 1) h2) hA

theorem loopFind_nil (pid : String) : loopFind [] pid = none := rfl

/-- C2 counterexample: with two coincident control points (a legal input
of 2 control points) the accumulated arc length is 0 and the single
produced section has a degenerate range not ending at 1, so the claim as
stated fails. -/
theorem c2_counterexample :
    (buildTrackSections degenPts [] false).sections.length = 1 ∧
      ((buildTrackSections degenPts [] false).sections.getD 0 junkSection).endProgress = 0 := by
  have hlen : degenPts.length = 2 := rfl
  rw [build_eq degenPts [] false (by rw [hlen])]
  have hr : List.range degenPts.length = [0, 1] := by rw [hlen]; rfl
  rw [hr]
  simp only [List.foldl_cons, List.foldl_nil]
  norm_num [buildStep, loopFind_nil, hlen, degen_segLength, assignRanges, List.getD]

/-- Witness for the amended C2 on the straight 2-point track of length 1. -/
theorem c2_witness :
    2 ≤ linePtsTU.length ∧
      0 < (buildTrackSections linePtsTU [] false).totalArcLength ∧
      ((buildTrackSections linePtsTU [] false).sections.getD
        ((buildTrackSections linePtsTU [] false).sections.length - 1)
          junkSection).endProgress = 1 := by
  have h2 : 2 ≤ linePtsTU.length := by rw [show linePtsTU.length = 2 from rfl]
  have hlen : linePtsTU.length = 2 := rfl
  have hA : 0 < (buildTrackSections linePtsTU [] false).totalArcLength := by
    rw [build_eq linePtsTU [] false h2]
    have hr : List.range linePtsTU.length = [0, 1] := by rw [hlen]; rfl
    rw [hr]
    simp only [List.foldl_cons, List.foldl_nil]
    norm_num [buildStep, loopFind_nil, hlen]
    rw [show mkCurve linePtsTU false = lineCurveTU from rfl,
      lineTU_segLength 0 1 le_rfl (by norm_num) le_rfl]
    norm_num
  exact ⟨h2, hA, (c2_section_ranges linePtsTU [] false h2 hA).2.2.1⟩

/-! ## Totality of `sampleHybridTrack` on built section lists -/

theorem findSection_mem (p : ℝ) :
    ∀ (l : List TrackSection) (s : TrackSection), findSection p l = some s → s ∈ l := by
  intro l
  induction l with
  | nil => intro s h; simp [findSection] at h
  | cons a rest ih =>
      intro s h
      rw [findSection] at h
      split at h
      · simp at h
        subst h
        simp
      · exact List.mem_cons_of_mem a (ih s h)

theorem chooseSection_mem (p : ℝ) (l : List TrackSection) (hne : l ≠ []) :
    ∃ s, chooseSection p l = some s ∧ s ∈ l := by
  rw [chooseSection]
  rcases hf : findSection p l with _ | s
  · refine ⟨l.getLast hne, ?_, List.getLast_mem hne⟩
    simp [List.getLast?_eq_getLast l hne]
  · exact ⟨s, rfl, findSection_mem p l s hf⟩

theorem sampleHybrid_of_WF (p : ℝ) (sections : List TrackSection) (spline : Curve3)
    (loops : List LoopSegment) (pts : List TrackPoint) (looped : Bool)
    (hne : sections ≠ []) (hwf : ∀ s ∈ sections, WFSec s) :
    ∃ out, sampleHybridTrack p sections spline loops pts looped = some out := by
  obtain ⟨s, hchoose, hmem⟩ := chooseSection_mem (max 0 (min p 0.9999)) sections hne
  simp only [sampleHybridTrack, if_neg hne, hchoose]
  obtain ⟨hroll, hspl⟩ := hwf s hmem
  rcases hty : s.type with _ | _
  · obtain ⟨h0, h1⟩ := hspl hty
    rcases hs0 : s.splineStartT with _ | s0
    · rw [hs0] at h0; simp at h0
    rcases hs1 : s.splineEndT with _ | s1
    · rw [hs1] at h1; simp at h1
    rcases hrf : s.rollFrame with _ | f <;> simp [hty, hrf, hs0, hs1]
  · have := hroll hty
    rcases hrf : s.rollFrame with _ | f
    · rw [hrf] at this; simp at this
    simp [hty, hrf]

theorem assignRanges_preserves (total : ℝ) :
    ∀ (l : List TrackSection) (run : ℝ) (s : TrackSection), s ∈ assignRanges total run l →
      ∃ s' ∈ l, s.type = s'.type ∧ s.rollFrame = s'.rollFrame ∧
        s.splineStartT = s'.splineStartT ∧ s.splineEndT = s'.splineEndT := by
  intro l
  induction l with
  | nil => intro run s h; simp [assignRanges] at h
  | cons a rest ih =>
      intro run s h
      rw [assignRanges] at h
      rcases List.mem_cons.mp h with h1 | h1
      · subst h1
        exact ⟨a, List.mem_cons_self a rest, rfl, rfl, rfl, rfl⟩
      · obtain ⟨s', hmem, hp⟩ := ih (run + a.arcLength) s h1
        exact ⟨s', List.mem_cons_of_mem a hmem, hp⟩

/-- C9: on a section list built from at least 2 control points,
`sampleHybridTrack` returns a sample for every progress value (negative
and beyond-1 values included); the null branches are unreachable. -/
theorem c9_sample_total (pts : List TrackPoint) (loops : List LoopSegment) (looped : Bool)
    (h2 : 2 ≤ pts.length) (p : ℝ) :
    ∃ out, sampleHybridTrack p (buildTrackSections pts loops looped).sections
      (mkCurve pts looped) loops pts looped = some out := by
  rw [build_eq pts loops looped h2]
  dsimp only
  obtain ⟨inv1, _, _⟩ :=
    buildFold_spec pts loops (mkCurve pts looped) looped pts.length
      (if looped then pts.length else pts.length - 1) (List.range pts.length)
      ⟨[], 0, vzero⟩ (by simp) (by simp)
  apply sampleHybrid_of_WF
  · have hlen := build_raw_nonempty pts loops (mkCurve pts looped) looped
      (if looped then pts.length else pts.length - 1) h2
    intro hc
    have hL := assignRanges_length (((List.range pts.length).foldl
      (buildStep pts loops (mkCurve pts looped) looped pts.length
        (if looped then pts.length else pts.length - 1)) ⟨[], 0, vzero⟩).acc) 0
      (((List.range pts.length).foldl
        (buildStep pts loops (mkCurve pts looped) looped pts.length
          (if looped then pts.length else pts.length - 1)) ⟨[], 0, vzero⟩).sections)
    rw [hc] at hL
    simp only [List.length_nil] at hL
    omega
  · intro s hs
    obtain ⟨s', hmem, ht, hr, h0, h1⟩ := assignRanges_preserves _ _ _ s hs
    obtain ⟨_, wf1, wf2⟩ := inv1 s' hmem
    constructor
    · intro hty
      rw [hr]
      exact wf1 (ht ▸ hty)
    · intro hty
      obtain ⟨w1, w2⟩ := wf2 (ht ▸ hty)
      exact ⟨h0 ▸ w1, h1 ▸ w2⟩

/-! ## First-peak scan refinement -/

theorem rel_peak_eq (maxH : Option ℝ) (peak : ℝ) (best : Option (ℝ × ℝ))
    (hrel : (maxH = none ∧ peak = 0.2 ∧ best = none) ∨
      (∃ q h, maxH = some h ∧ peak = q ∧ best = some (q, h))) :
    peak = specPeakOf best := by
  rcases hrel with ⟨_, hp, hb⟩ | ⟨q, h, _, hp, hb⟩ <;> subst hp <;> subst hb <;>
    simp [specPeakOf]

theorem peakLoop_eq_specWalk (f : ℝ → Option TrackSample) :
    ∀ (ks : List ℕ) (maxH : Option ℝ) (peak : ℝ) (climb : Bool) (best : Option (ℝ × ℝ)),
      ((maxH = none ∧ peak = 0.2 ∧ best = none) ∨
        (∃ q h, maxH = some h ∧ peak = q ∧ best = some (q, h))) →
      peakLoop f ks maxH peak climb = specWalk f ks climb best := by
  intro ks
  induction ks with
  | nil =>
      intro maxH peak climb best hrel
      rw [peakLoop, specWalk]
      exact rel_peak_eq maxH peak best hrel
  | cons k rest ih =>
      intro maxH peak climb best hrel
      rw [peakLoop, specWalk]
      rcases hf : f ((k : ℝ) / 100) with _ | s
      · exact ih maxH peak climb best hrel
      · rcases hrel with ⟨hm, hp, hb⟩ | ⟨q, h, hm, hp, hb⟩ <;> subst hm <;> subst hp <;>
          subst hb <;> dsimp only [specHigher, specPeakOf]
        · by_cases hcl : (if 0.1 < s.tangent.y then true else climb) = true
          · have hcl' : ((if 0.1 < s.tangent.y then true else climb) = true ∧ True) := by
              exact ⟨hcl, trivial⟩
            rw [if_pos hcl', if_pos hcl', if_pos hcl']
            dsimp only
            have hbr : ¬((if 0.1 < s.tangent.y then true else climb) = true ∧
                s.tangent.y < -0.1 ∧ ((k : ℝ) / 100) < (k : ℝ) / 100) := by
              rintro ⟨_, _, hlt⟩
              exact lt_irrefl _ hlt
            rw [if_neg hbr, if_neg hbr]
            exact ih _ _ _ _ (Or.inr ⟨(k : ℝ) / 100, s.point.y, rfl, rfl, rfl⟩)
          · have hcl' : ¬((if 0.1 < s.tangent.y then true else climb) = true ∧ True) := by
              rintro ⟨hc, _⟩
              exact hcl hc
            rw [if_neg hcl', if_neg hcl', if_neg hcl']
            dsimp only
            have hbr : ¬((if 0.1 < s.tangent.y then true else climb) = true ∧
                s.tangent.y < -0.1 ∧ (0.2 : ℝ) < (k : ℝ) / 100) := by
              rintro ⟨hc, _, _⟩
              exact hcl hc
            rw [if_neg hbr, if_neg hbr]
            exact ih _ _ _ _ (Or.inl ⟨rfl, rfl, rfl⟩)
        · by_cases hcond : (if 0.1 < s.tangent.y then true else climb) = true ∧
              h < s.point.y
          · rw [if_pos hcond, if_pos hcond, if_pos hcond]
            dsimp only
            have hbr : ¬((if 0.1 < s.tangent.y then true else climb) = true ∧
                s.tangent.y < -0.1 ∧ ((k : ℝ) / 100) < (k : ℝ) / 100) := by
              rintro ⟨_, _, hlt⟩
              exact lt_irrefl _ hlt
            rw [if_neg hbr, if_neg hbr]
            exact ih _ _ _ _ (Or.inr ⟨(k : ℝ) / 100, s.point.y, rfl, rfl, rfl⟩)
          · rw [if_neg hcond, if_neg hcond, if_neg hcond]
            dsimp only
            by_cases hbr : (if 0.1 < s.tangent.y then true else climb) = true ∧
                s.tangent.y < -0.1 ∧ peak < (k : ℝ) / 100
            · rw [if_pos hbr, if_pos hbr]
            · rw [if_neg hbr, if_neg hbr]
              exact ih _ _ _ _ (Or.inr ⟨peak, h, rfl, rfl, rfl⟩)

/-- C6: the chain-lift handoff value `firstPeakProgress` returned by
`buildTrackSections` equals the spec-described walk over progress
`0, 0.01, ..., 0.5` that records the height peak after an initial climb
(`tangent.y > 0.1`) against the assembled sampler. -/
theorem c6_first_peak (pts : List TrackPoint) (loops : List LoopSegment) (looped : Bool)
    (h2 : 2 ≤ pts.length) :
    (buildTrackSections pts loops looped).firstPeakProgress =
      firstPeakSpec (fun p =>
        sampleHybridTrack p (buildTrackSections pts loops looped).sections
          (mkCurve pts looped) loops pts looped) := by
  rw [build_eq pts loops looped h2]
  dsimp only
  rw [peakScan, firstPeakSpec]
  exact peakLoop_eq_specWalk _ (List.range 51) none 0.2 false none (Or.inl ⟨rfl, rfl, rfl⟩)

/-- Witness for C6 on the 2-point straight track. -/
theorem c6_witness :
    2 ≤ linePtsTU.length ∧
      (buildTrackSections linePtsTU [] false).firstPeakProgress =
        firstPeakSpec (fun p =>
          sampleHybridTrack p (buildTrackSections linePtsTU [] false).sections
            (mkCurve linePtsTU false) [] linePtsTU false) :=
  ⟨by rw [show linePtsTU.length = 2 from rfl],
   c6_first_peak linePtsTU [] false (by rw [show linePtsTU.length = 2 from rfl])⟩

/-! ## Orthonormality of the spline-branch frame -/

theorem sub_dot (a b c : Vec3) : (a.sub b).dot c = a.dot c - b.dot c := by
  simp only [Vec3.sub, Vec3.dot]; ring

theorem scale_one (v : Vec3) : v.scale 1 = v := by
  simp [Vec3.scale, Vec3.eq_iff]

theorem threeNormalize_unit {v : Vec3} (h : v.dot v = 1) : threeNormalize v = v := by
  have hl : v.length = 1 := length_eq_one_of_dot v h
  rw [threeNormalize, if_neg (by rw [hl]; norm_num), hl]
  norm_num [scale_one]

theorem proj_dot_self (a b : Vec3) (hb : b.dot b = 1) :
    (a.sub (b.scale (a.dot b))).dot (a.sub (b.scale (a.dot b))) =
      a.dot a - (a.dot b) ^ 2 := by
  simp only [Vec3.sub, Vec3.scale, Vec3.dot] at hb ⊢
  linear_combination (a.x * b.x + a.y * b.y + a.z * b.z) ^ 2 * hb

theorem proj_dot_base (a b : Vec3) (hb : b.dot b = 1) :
    (a.sub (b.scale (a.dot b))).dot b = 0 := by
  rw [sub_dot, scale_dot, hb]
  ring

/-- Orthonormality of the frame built by the spline branch of
`sampleHybridTrack`, given that the central tangent difference of the
curve at the evaluated parameter is nonzero. -/
theorem splineBranch_orthonormal (spline : Curve3) (loops : List LoopSegment)
    (pts : List TrackPoint) (looped : Bool) (pidx : Option ℕ) (splineT : ℝ)
    (hdiff : (curveGetPoint spline (if 1 < splineT + 0.0001 then 1 else splineT + 0.0001)).sub
      (curveGetPoint spline (if splineT - 0.0001 < 0 then 0 else splineT - 0.0001)) ≠ vzero) :
    orthoFrame (splineBranch spline loops pts looped pidx splineT) := by
  have htan : (curveGetTangent spline splineT).dot (curveGetTangent spline splineT) = 1 := by
    rw [curveGetTangent]
    exact threeNormalize_dot_self hdiff
  set tgt := curveGetTangent spline splineT with htgt
  have htan2 : (threeNormalize tgt).dot (threeNormalize tgt) = 1 := by
    rw [threeNormalize_unit htan]
    exact htan
  rw [splineBranch]
  set T := threeNormalize tgt with hT
  have hTT : T.dot T = 1 := htan2
  set worldUp : Vec3 := ⟨0, 1, 0⟩ with hwu
  set right0 := T.cross worldUp with hright0
  have hr0T : right0.dot T = 0 := cross_dot_left T worldUp
  by_cases hbig : 0.01 < right0.length
  · have hr0ne : right0 ≠ vzero := by
      intro hc
      rw [hc, (length_eq_zero_iff vzero).mpr rfl] at hbig
      norm_num at hbig
    have hl0 : right0.length ≠ 0 := fun hc => hr0ne ((length_eq_zero_iff right0).mp hc)
    set R := threeNormalize right0 with hR
    have hRR : R.dot R = 1 := threeNormalize_dot_self hr0ne
    have hRT : R.dot T = 0 := by
      rw [hR, threeNormalize, if_neg hl0, scale_dot, hr0T, mul_zero]
    set U0 := R.cross T with hU0
    have hU0U0 : U0.dot U0 = 1 := by
      rw [hU0, lagrange_cross, hRR, hTT, hRT]
      ring
    have hU : threeNormalize U0 = U0 := threeNormalize_unit hU0U0
    have hUT : U0.dot T = 0 := cross_dot_right R T
    set N0 := T.cross U0 with hN0
    have hN0N0 : N0.dot N0 = 1 := by
      rw [hN0, lagrange_cross, hTT, hU0U0]
      rw [show T.dot U0 = U0.dot T from dot_comm T U0, hUT]
      ring
    have hN : threeNormalize N0 = N0 := threeNormalize_unit hN0N0
    rw [if_pos hbig]
    refine ⟨?_, ?_, ?_, ?_, ?_, ?_⟩
    · exact length_eq_one_of_dot _ htan2
    · show (threeNormalize U0).length = 1
      rw [hU]
      exact length_eq_one_of_dot _ hU0U0
    · show (threeNormalize (T.cross (threeNormalize U0))).length = 1
      rw [hU, hN]
      exact length_eq_one_of_dot _ hN0N0
    · show T.dot (threeNormalize U0) = 0
      rw [hU, dot_comm]
      exact hUT
    · show T.dot (threeNormalize (T.cross (threeNormalize U0))) = 0
      rw [hU, hN, dot_comm]
      exact cross_dot_left T U0
    · show (threeNormalize U0).dot (threeNormalize (T.cross (threeNormalize U0))) = 0
      rw [hU, hN, dot_comm]
      exact cross_dot_right T U0
  · have hwuu : worldUp.dot worldUp = 1 := by
      simp [hwu, Vec3.dot]
    set u0 := worldUp.sub (T.scale (worldUp.dot T)) with hu0
    have hu0T : u0.dot T = 0 := proj_dot_base worldUp T hTT
    have hu0u0 : u0.dot u0 = 1 - (worldUp.dot T) ^ 2 := by
      rw [hu0, proj_dot_self worldUp T hTT, hwuu]
    have hcross : right0.dot right0 = 1 - (worldUp.dot T) ^ 2 := by
      rw [hright0, lagrange_cross, hTT, hwuu]
      rw [show T.dot worldUp = worldUp.dot T from dot_comm T worldUp]
      ring
    have hsmall : right0.dot right0 ≤ 0.0001 := by
      push_neg at hbig
      calc right0.dot right0 = right0.length ^ 2 := (length_sq right0).symm
      _ ≤ 0.01 ^ 2 := by
          apply pow_le_pow_left₀ (length_nonneg right0) hbig
      _ ≤ 0.0001 := by norm_num
    rw [if_neg hbig]
    simp only []
    by_cases hmid : 0.001 < u0.length
    · have hu0ne : u0 ≠ vzero := by
        intro hc
        rw [hc, (length_eq_zero_iff vzero).mpr rfl] at hmid
        norm_num at hmid
      have hl0 : u0.length ≠ 0 := fun hc => hu0ne ((length_eq_zero_iff u0).mp hc)
      set U := threeNormalize u0 with hUdef
      have hUU : U.dot U = 1 := threeNormalize_dot_self hu0ne
      have hUT : U.dot T = 0 := by
        rw [hUdef, threeNormalize, if_neg hl0, scale_dot, hu0T, mul_zero]
      set N0 := T.cross U with hN0
      have hN0N0 : N0.dot N0 = 1 := by
        rw [hN0, lagrange_cross, hTT, hUU]
        rw [show T.dot U = U.dot T from dot_comm T U, hUT]
        ring
      have hN : threeNormalize N0 = N0 := threeNormalize_unit hN0N0
      rw [if_pos hmid]
      refine ⟨?_, ?_, ?_, ?_, ?_, ?_⟩
      · exact length_eq_one_of_dot _ htan2
      · exact length_eq_one_of_dot _ hUU
      · show (threeNormalize (T.cross U)).length = 1
        rw [hN]
        exact length_eq_one_of_dot _ hN0N0
      · show T.dot U = 0
        rw [dot_comm]
        exact hUT
      · show T.dot (threeNormalize (T.cross U)) = 0
        rw [hN, dot_comm]
        exact cross_dot_left T U
      · show U.dot (threeNormalize (T.cross U)) = 0
        rw [hN, dot_comm]
        exact cross_dot_right T U
    · set e0 : Vec3 := ⟨1, 0, 0⟩ with he0
      have hee : e0.dot e0 = 1 := by simp [he0, Vec3.dot]
      set u1 := e0.sub (T.scale (e0.dot T)) with hu1
      have hu1T : u1.dot T = 0 := proj_dot_base e0 T hTT
      have hu1u1 : u1.dot u1 = 1 - (e0.dot T) ^ 2 := by
        rw [hu1, proj_dot_self e0 T hTT, hee]
      have hcomp : (e0.dot T) ^ 2 + (worldUp.dot T) ^ 2 ≤ T.dot T := by
        simp only [he0, hwu, Vec3.dot]
        nlinarith [sq_nonneg T.z]
      have hpos : 0 < u1.dot u1 := by
        rw [hu1u1]
        have h1 : 1 - (worldUp.dot T) ^ 2 ≤ 0.0001 := by
          rw [← hcross]
          exact hsmall
        nlinarith [hTT]
      have hu1ne : u1 ≠ vzero := by
        intro hc
        rw [hc] at hpos
        rw [show vzero.dot vzero = 0 from by simp [vzero, Vec3.dot]] at hpos
        exact lt_irrefl 0 hpos
      have hl1 : u1.length ≠ 0 := fun hc => hu1ne ((length_eq_zero_iff u1).mp hc)
      set U := threeNormalize u1 with hUdef
      have hUU : U.dot U = 1 := threeNormalize_dot_self hu1ne
      have hUT : U.dot T = 0 := by
        rw [hUdef, threeNormalize, if_neg hl1, scale_dot, hu1T, mul_zero]
      set N0 := T.cross U with hN0
      have hN0N0 : N0.dot N0 = 1 := by
        rw [hN0, lagrange_cross, hTT, hUU]
        rw [show T.dot U = U.dot T from dot_comm T U, hUT]
        ring
      have hN : threeNormalize N0 = N0 := threeNormalize_unit hN0N0
      rw [if_neg hmid]
      refine ⟨?_, ?_, ?_, ?_, ?_, ?_⟩
      · exact length_eq_one_of_dot _ htan2
      · exact length_eq_one_of_dot _ hUU
      · show (threeNormalize (T.cross U)).length = 1
        rw [hN]
        exact length_eq_one_of_dot _ hN0N0
      · show T.dot U = 0
        rw [dot_comm]
        exact hUT
      · show T.dot (threeNormalize (T.cross U)) = 0
        rw [hN, dot_comm]
        exact cross_dot_left T U
      · show U.dot (threeNormalize (T.cross U)) = 0
        rw [hN, dot_comm]
        exact cross_dot_right T U

/-- The spline-typed branch reduction of `sampleHybridTrack`. -/
theorem sampleHybrid_spline_eq (progress : ℝ) (sections : List TrackSection) (spline : Curve3)
    (loops : List LoopSegment) (pts : List TrackPoint) (looped : Bool)
    (sec : TrackSection) (s0 s1 : ℝ)
    (hne : sections ≠ [])
    (hsec : chooseSection (max 0 (min progress 0.9999)) sections = some sec)
    (hty : sec.type = SectionType.spline)
    (h0 : sec.splineStartT = some s0) (h1 : sec.splineEndT = some s1) :
    sampleHybridTrack progress sections spline loops pts looped =
      some (splineBranch spline loops pts looped sec.pointIndex
        (s0 + ((max 0 (min progress 0.9999) - sec.startProgress) /
          (sec.endProgress - sec.startProgress)) * (s1 - s0))) := by
  simp only [sampleHybridTrack, if_neg hne, hsec, hty, h0, h1]

/-- C3 (amended): whenever `sampleHybridTrack` answers a progress value
from a spline section (and the curve's central tangent difference there
is nonzero), the returned tangent, up and normal vectors are exactly unit
length and mutually orthogonal. In roll sections the claim fails; see the
counterexample. -/
theorem c3_frame_orthonormal (progress : ℝ) (sections : List TrackSection) (spline : Curve3)
    (loops : List LoopSegment) (pts : List TrackPoint) (looped : Bool)
    (sec : TrackSection) (s0 s1 : ℝ)
    (hne : sections ≠ [])
    (hsec : chooseSection (max 0 (min progress 0.9999)) sections = some sec)
    (hty : sec.type = SectionType.spline)
    (h0 : sec.splineStartT = some s0) (h1 : sec.splineEndT = some s1)
    (hdiff : (curveGetPoint spline
        (if 1 < (s0 + ((max 0 (min progress 0.9999) - sec.startProgress) /
            (sec.endProgress - sec.startProgress)) * (s1 - s0)) + 0.0001 then 1
          else (s0 + ((max 0 (min progress 0.9999) - sec.startProgress) /
            (sec.endProgress - sec.startProgress)) * (s1 - s0)) + 0.0001)).sub
      (curveGetPoint spline
        (if (s0 + ((max 0 (min progress 0.9999) - sec.startProgress) /
            (sec.endProgress - sec.startProgress)) * (s1 - s0)) - 0.0001 < 0 then 0
          else (s0 + ((max 0 (min progress 0.9999) - sec.startProgress) /
            (sec.endProgress - sec.startProgress)) * (s1 - s0)) - 0.0001)) ≠ vzero) :
    sampleHybridTrack progress sections spline loops pts looped =
        some (splineBranch spline loops pts looped sec.pointIndex
          (s0 + ((max 0 (min progress 0.9999) - sec.startProgress) /
            (sec.endProgress - sec.startProgress)) * (s1 - s0))) ∧
      orthoFrame (splineBranch spline loops pts looped sec.pointIndex
        (s0 + ((max 0 (min progress 0.9999) - sec.startProgress) /
          (sec.endProgress - sec.startProgress)) * (s1 - s0))) :=
  ⟨sampleHybrid_spline_eq progress sections spline loops pts looped sec s0 s1 hne hsec hty h0 h1,
   splineBranch_orthonormal spline loops pts looped sec.pointIndex _ hdiff⟩

/-- Witness for the amended C3: the single-section line track sampled at
progress 0.3. -/
theorem c3_witness :
    chooseSection (max 0 (min 0.3 0.9999)) [c3Sec] = some c3Sec ∧
      orthoFrame (splineBranch lineCurveTU [] linePtsTU false c3Sec.pointIndex
        (0 + ((max 0 (min 0.3 0.9999) - c3Sec.startProgress) /
          (c3Sec.endProgress - c3Sec.startProgress)) * (1 - 0))) := by
  have hm : max 0 (min 0.3 0.9999) = (0.3 : ℝ) := by norm_num
  have hsec : chooseSection (max 0 (min 0.3 0.9999)) [c3Sec] = some c3Sec := by
    rw [hm, chooseSection, findSection]
    rw [if_pos]
    constructor <;> norm_num [c3Sec]
  refine ⟨hsec, ?_⟩
  refine (c3_frame_orthonormal 0.3 [c3Sec] lineCurveTU [] linePtsTU false c3Sec 0 1
    (by simp) hsec rfl rfl rfl ?_).2
  have hT : (0 : ℝ) + ((max 0 (min 0.3 0.9999) - c3Sec.startProgress) /
      (c3Sec.endProgress - c3Sec.startProgress)) * (1 - 0) = 0.3 := by
    rw [hm]
    norm_num [c3Sec]
  rw [hT]
  rw [if_neg (by norm_num), if_neg (by norm_num)]
  rw [lineTU_getPoint (0.3 + 0.0001) (by norm_num) (by norm_num),
    lineTU_getPoint (0.3 - 0.0001) (by norm_num) (by norm_num)]
  intro h
  rw [Vec3.eq_iff] at h
  obtain ⟨hx, -, -⟩ := h
  simp only [Vec3.sub, vzero] at hx
  norm_num at hx

/-! ## The roll-section counterexample track -/

theorem sub_vzero (v : Vec3) : v.sub vzero = v := by
  simp [Vec3.sub, vzero, Vec3.eq_iff]

theorem rollArc_lb : 12 ≤ computeRollArcLength 5 12 := by
  have hterm : ∀ i ∈ Finset.range 100, (12 : ℝ) / 100 ≤
      Real.sqrt (12 / 100 * (12 / 100) +
        5 * Real.sqrt ((loopTheta (((i : ℝ) + 1) / 100) - loopTheta ((i : ℝ) / 100)) *
          (loopTheta (((i : ℝ) + 1) / 100) - loopTheta ((i : ℝ) / 100))) *
        (5 * Real.sqrt ((loopTheta (((i : ℝ) + 1) / 100) - loopTheta ((i : ℝ) / 100)) *
          (loopTheta (((i : ℝ) + 1) / 100) - loopTheta ((i : ℝ) / 100))))) := by
    intro i _
    have h1 : (12 : ℝ) / 100 = Real.sqrt (12 / 100 * (12 / 100)) :=
      (Real.sqrt_mul_self (by norm_num)).symm
    rw [h1]
    apply Real.sqrt_le_sqrt
    nlinarith [mul_self_nonneg (5 * Real.sqrt
      ((loopTheta (((i : ℝ) + 1) / 100) - loopTheta ((i : ℝ) / 100)) *
        (loopTheta (((i : ℝ) + 1) / 100) - loopTheta ((i : ℝ) / 100))))]
  have hsum := Finset.sum_le_sum hterm
  have hconst : (Finset.sum (Finset.range 100) fun _ => (12 : ℝ) / 100) = 12 := by
    rw [Finset.sum_const, Finset.card_range]
    norm_num
  rw [hconst] at hsum
  exact le_trans hsum (le_of_eq rfl)

theorem cex3_segLength (a b : ℝ) (h0 : 0 ≤ a) (hab : a ≤ b) (hb : b ≤ 1) :
    splineSegLength cexCurve3 a b = 60 * (b - a) := by
  rw [splineSegLength]
  have key : ∀ s ∈ Finset.range 10,
      (curveGetPoint cexCurve3 (a + ((s : ℝ) / 10) * (b - a))).distanceTo
          (curveGetPoint cexCurve3 (a + (((s : ℝ) + 1) / 10) * (b - a))) =
        60 * (b - a) / 10 := by
    intro s hs
    have hs10 : (s : ℝ) ≤ 9 := by
      have := Finset.mem_range.mp hs
      exact_mod_cast Nat.lt_succ_iff.mp (by omega)
    have hsn : (0 : ℝ) ≤ (s : ℝ) := Nat.cast_nonneg s
    have hu0 : 0 ≤ a + ((s : ℝ) / 10) * (b - a) := by nlinarith
    have hu1 : a + ((s : ℝ) / 10) * (b - a) ≤ 1 := by nlinarith
    have hv0 : 0 ≤ a + (((s : ℝ) + 1) / 10) * (b - a) := by nlinarith
    have hv1 : a + (((s : ℝ) + 1) / 10) * (b - a) ≤ 1 := by nlinarith
    rw [cex3_getPoint _ hu0 hu1, cex3_getPoint _ hv0 hv1, dist_xvec]
    rw [abs_of_nonpos (by nlinarith)]
    ring
  rw [Finset.sum_congr rfl key, Finset.sum_const, Finset.card_range]
  ring

theorem loopTheta_half : loopTheta (1 / 2) = Real.pi := by
  rw [loopTheta]
  have h : twoPi * (1 / 2 : ℝ) = Real.pi := by rw [twoPi]; ring
  rw [h, Real.sin_pi, twoPi]
  norm_num
  ring

theorem loopDTheta_half : loopDTheta (1 / 2) = 4 * Real.pi := by
  rw [loopDTheta]
  have h : twoPi * (1 / 2 : ℝ) = Real.pi := by rw [twoPi]; ring
  rw [h, Real.cos_pi, twoPi]
  ring

theorem cex3_rollFrame :
    computeRollFrame cexCurve3 (1 / 2) 5 12 vzero =
      ⟨⟨30, 0, 0⟩, ⟨1, 0, 0⟩, ⟨0, 1, 0⟩, ⟨0, 0, 1⟩, 5, 12⟩ := by
  have hy : threeNormalize ⟨0, 1, 0⟩ = (⟨0, 1, 0⟩ : Vec3) :=
    threeNormalize_unit (by norm_num [Vec3.dot])
  have hz : threeNormalize ⟨0, 0, 1⟩ = (⟨0, 0, 1⟩ : Vec3) :=
    threeNormalize_unit (by norm_num [Vec3.dot])
  rw [computeRollFrame, cex3_getPoint (1 / 2) (by norm_num) (by norm_num),
    cex3_getTangent (1 / 2) (by norm_num) (by norm_num)]
  rw [show (Vec3.mk (60 * (1 / 2)) 0 0).add vzero = ⟨30, 0, 0⟩ by
    simp [Vec3.add, vzero, Vec3.eq_iff]; norm_num]
  rw [threeNormalize_xvec one_pos]
  rw [show (Vec3.mk 0 1 0).dot ⟨1, 0, 0⟩ = 0 by norm_num [Vec3.dot]]
  rw [show (Vec3.mk 1 0 0).scale 0 = vzero from scale_zero_eq _]
  rw [sub_vzero]
  rw [if_pos (by
    rw [show (Vec3.mk 0 1 0).length = 1 from length_eq_one_of_dot _ (by norm_num [Vec3.dot])]
    norm_num)]
  rw [hy]
  rw [show (Vec3.mk 1 0 0).cross ⟨0, 1, 0⟩ = ⟨0, 0, 1⟩ by norm_num [Vec3.cross, Vec3.eq_iff]]
  rw [hz]

/-- C3 counterexample: on the 3-point track with a loop at the middle
point, progress 0.5 falls inside the roll section (at local parameter
1/2), where the returned tangent and normal have dot product about
-0.44, far outside any reasonable tolerance. -/
theorem c3_counterexample :
    ((sampleHybridTrack 0.5 (buildTrackSections cexPts3 cexLoops false).sections cexCurve3
        cexLoops cexPts3 false).getD junkTrackSample).tangent.dot
      (((sampleHybridTrack 0.5 (buildTrackSections cexPts3 cexLoops false).sections cexCurve3
        cexLoops cexPts3 false).getD junkTrackSample).normal) < -(1 / 10) := by
  have hlen3 : cexPts3.length = 3 := rfl
  have hrange : List.range cexPts3.length = [0, 1, 2] := by rw [hlen3]; decide
  have hcc : mkCurve cexPts3 false = cexCurve3 := rfl
  have hseg1 : splineSegLength cexCurve3 0 (1 / 2) = 30 := by
    rw [cex3_segLength 0 (1 / 2) le_rfl (by norm_num) (by norm_num)]
    norm_num
  have hseg2 : splineSegLength cexCurve3 (1 / 2) 1 = 30 := by
    rw [cex3_segLength (1 / 2) 1 (by norm_num) (by norm_num) le_rfl]
    norm_num
  have hfind0 : loopFind cexLoops "a" = none := by simp [loopFind, cexLoops]
  have hfind1 : loopFind cexLoops "b" = some ⟨"L", "b", 5, 12⟩ := by simp [loopFind, cexLoops]
  have hfind2 : loopFind cexLoops "c" = none := by simp [loopFind, cexLoops]
  rw [build_eq cexPts3 cexLoops false (by rw [hlen3]; norm_num)]
  dsimp only
  rw [hrange]
  simp only [List.foldl_cons, List.foldl_nil]
  norm_num [buildStep, cexPts3, hfind0, hfind1, hfind2, hcc,
    List.getElem_cons_zero, List.getElem_cons_succ]
  have hcc2 : mkCurve [(⟨"a", ⟨0, 0, 0⟩, 0⟩ : TrackPoint), ⟨"b", ⟨30, 0, 0⟩, 0⟩,
      ⟨"c", ⟨60, 0, 0⟩, 0⟩] false = cexCurve3 := rfl
  simp only [hcc2, hseg1, hseg2, cex3_rollFrame]
  norm_num [assignRanges]
  have hL12 : (12 : ℝ) ≤ computeRollArcLength 5 12 := rollArc_lb
  set L := computeRollArcLength 5 12 with hLdef
  have hA : (0 : ℝ) < 30 + L + 30 := by linarith
  have hAne : (30 + L + 30 : ℝ) ≠ 0 := ne_of_gt hA
  have hLne : (L : ℝ) ≠ 0 := ne_of_gt (by linarith)
  have hp : max (0 : ℝ) (min (1 / 2) 0.9999) = 1 / 2 := by
    rw [min_def, max_def]
    norm_num
  have hb1 : ¬((1 / 2 : ℝ) < 30 / (30 + L + 30)) := by
    intro h
    have := (lt_div_iff₀ hA).mp h
    linarith
  have hc2 : (30 / (30 + L + 30) ≤ (1 : ℝ) / 2 ∧
      (1 / 2 : ℝ) < (30 + L) / (30 + L + 30)) := by
    constructor
    · rw [div_le_iff₀ hA]; linarith
    · rw [lt_div_iff₀ hA]; linarith
  norm_num [sampleHybridTrack, chooseSection, findSection, hp, hb1, hc2,
    List.cons_ne_nil]
  have hloc : ((1 : ℝ) / 2 - 30 / (30 + L + 30)) /
      ((30 + L) / (30 + L + 30) - 30 / (30 + L + 30)) = 1 / 2 := by
    rw [div_sub_div_same]
    rw [show (30 : ℝ) + L - 30 = L by ring]
    field_simp
    ring
  rw [hloc]
  have hvel : loopVelocity ⟨⟨30, 0, 0⟩, ⟨1, 0, 0⟩, ⟨0, 1, 0⟩, ⟨0, 0, 1⟩, 5, 12⟩ (1 / 2) =
      ⟨12 - 20 * Real.pi, 0, -(8 * Real.pi)⟩ := by
    rw [loopVelocity, loopTheta_half, loopDTheta_half]
    rw [Real.sin_pi, Real.cos_pi]
    rw [Vec3.eq_iff]
    refine ⟨?_, ?_, ?_⟩
    all_goals simp only [Vec3.add, Vec3.scale]
    all_goals norm_num
    all_goals try ring
  simp only [sampleVerticalLoopAnalytically]
  rw [hvel]
  set v : Vec3 := ⟨12 - 20 * Real.pi, 0, -(8 * Real.pi)⟩ with hvdef
  have hvv : v.dot v = (12 - 20 * Real.pi) ^ 2 + (8 * Real.pi) ^ 2 := by
    simp only [hvdef, Vec3.dot]
    ring
  have hpi1 : (3.141592 : ℝ) < Real.pi := Real.pi_gt_d6
  have hpi2 : Real.pi < 3.15 := Real.pi_lt_d2
  have hvvpos : 0 < v.dot v := by
    rw [hvv]
    nlinarith [sq_nonneg (12 - 20 * Real.pi)]
  have hlpos : 0 < v.length := by
    rw [Vec3.length]
    exact Real.sqrt_pos.mpr hvvpos
  have hvvle : v.dot v ≤ 10000 := by
    rw [hvv]
    nlinarith [mul_nonneg (by linarith : (0 : ℝ) ≤ 51 - (20 * Real.pi - 12))
        (by linarith : (0 : ℝ) ≤ 51 + (20 * Real.pi - 12)),
      mul_nonneg (by linarith : (0 : ℝ) ≤ 3.15 - Real.pi)
        (by linarith : (0 : ℝ) ≤ 3.15 + Real.pi)]
  have hl100 : v.length ≤ 100 := by
    rw [Vec3.length]
    calc Real.sqrt (v.dot v) ≤ Real.sqrt 10000 := Real.sqrt_le_sqrt hvvle
      _ = 100 := by
          rw [show (10000 : ℝ) = 100 ^ 2 by norm_num]
          exact Real.sqrt_sq (by norm_num)
  rw [threeNormalize, if_neg (ne_of_gt hlpos)]
  rw [scale_dot]
  have hdotv : v.dot (⟨0, 0, 1⟩ : Vec3) = -(8 * Real.pi) := by
    simp only [hvdef, Vec3.dot]
    ring
  rw [hdotv]
  rw [show (1 / Vec3.length v) * -(8 * Real.pi) = -(8 * Real.pi / v.length) by ring]
  rw [neg_lt_neg_iff]
  rw [lt_div_iff₀ hlpos]
  linarith

/-! ## Loop sampler: position formula, derivative, endpoint tangents -/

theorem add_vzero (v : Vec3) : v.add vzero = v := by
  simp [Vec3.add, vzero, Vec3.eq_iff]

theorem twoPi_ne_zero : twoPi ≠ 0 := by
  rw [twoPi]
  positivity

theorem loopTheta_zero : loopTheta 0 = 0 := by
  rw [loopTheta]
  norm_num

theorem loopTheta_one : loopTheta 1 = twoPi := by
  rw [loopTheta]
  rw [mul_one, show twoPi = 2 * Real.pi from rfl, Real.sin_two_pi]
  norm_num

theorem loopDTheta_zero : loopDTheta 0 = 0 := by
  rw [loopDTheta]
  norm_num

theorem loopDTheta_one : loopDTheta 1 = 0 := by
  rw [loopDTheta]
  rw [mul_one, show twoPi = 2 * Real.pi from rfl, Real.cos_two_pi]
  norm_num

theorem hasDerivAt_loopTheta (t : ℝ) : HasDerivAt loopTheta (loopDTheta t) t := by
  have h1 : HasDerivAt (fun u : ℝ => twoPi * u) (twoPi * 1) t :=
    (hasDerivAt_id t).const_mul twoPi
  have h2 : HasDerivAt (fun u : ℝ => Real.sin (twoPi * u))
      (Real.cos (twoPi * t) * (twoPi * 1)) t :=
    (Real.hasDerivAt_sin (twoPi * t)).comp t h1
  have h3 := h2.div_const twoPi
  have h4 := ((hasDerivAt_id t).sub h3).const_mul twoPi
  have hval : twoPi * (1 - Real.cos (twoPi * t) * (twoPi * 1) / twoPi) = loopDTheta t := by
    rw [loopDTheta, mul_one, mul_div_assoc, div_self twoPi_ne_zero, mul_one]
  rw [← hval]
  exact h4

theorem hasDerivAt_loopA (f : BarrelRollFrame) (t : ℝ) :
    HasDerivAt (fun u => f.pitch * u + f.radius * Real.sin (loopTheta u))
      (f.pitch + f.radius * Real.cos (loopTheta t) * loopDTheta t) t := by
  have h1 : HasDerivAt (fun u : ℝ => f.pitch * u) (f.pitch * 1) t :=
    (hasDerivAt_id t).const_mul f.pitch
  have h2 : HasDerivAt (fun u : ℝ => Real.sin (loopTheta u))
      (Real.cos (loopTheta t) * loopDTheta t) t :=
    (Real.hasDerivAt_sin (loopTheta t)).comp t (hasDerivAt_loopTheta t)
  have h3 := h1.add (h2.const_mul f.radius)
  have hval : f.pitch * 1 + f.radius * (Real.cos (loopTheta t) * loopDTheta t) =
      f.pitch + f.radius * Real.cos (loopTheta t) * loopDTheta t := by ring
  rw [← hval]
  exact h3

theorem hasDerivAt_loopB (f : BarrelRollFrame) (t : ℝ) :
    HasDerivAt (fun u => f.radius * (1 - Real.cos (loopTheta u)))
      (f.radius * Real.sin (loopTheta t) * loopDTheta t) t := by
  have h2 : HasDerivAt (fun u : ℝ => Real.cos (loopTheta u))
      (-Real.sin (loopTheta t) * loopDTheta t) t :=
    (Real.hasDerivAt_cos (loopTheta t)).comp t (hasDerivAt_loopTheta t)
  have h3 := ((hasDerivAt_const t (1 : ℝ)).sub h2).const_mul f.radius
  have hval : f.radius * (0 - -Real.sin (loopTheta t) * loopDTheta t) =
      f.radius * Real.sin (loopTheta t) * loopDTheta t := by ring
  rw [← hval]
  exact h3

theorem hasDerivAt_loopC (f : BarrelRollFrame) (t : ℝ) :
    HasDerivAt (fun u => 0.4 * f.radius * Real.sin (loopTheta u))
      (f.radius * 0.4 * Real.cos (loopTheta t) * loopDTheta t) t := by
  have h2 : HasDerivAt (fun u : ℝ => Real.sin (loopTheta u))
      (Real.cos (loopTheta t) * loopDTheta t) t :=
    (Real.hasDerivAt_sin (loopTheta t)).comp t (hasDerivAt_loopTheta t)
  have h3 := h2.const_mul (0.4 * f.radius)
  have hval : 0.4 * f.radius * (Real.cos (loopTheta t) * loopDTheta t) =
      f.radius * 0.4 * Real.cos (loopTheta t) * loopDTheta t := by ring
  rw [← hval]
  exact h3

theorem loopVelocity_zero (f : BarrelRollFrame) : loopVelocity f 0 = f.forward.scale f.pitch := by
  rw [loopVelocity, loopTheta_zero, loopDTheta_zero]
  simp only [Real.sin_zero, Real.cos_zero]
  norm_num [scale_zero_eq, add_vzero]

theorem loopVelocity_one (f : BarrelRollFrame) : loopVelocity f 1 = f.forward.scale f.pitch := by
  rw [loopVelocity, loopTheta_one, loopDTheta_one]
  rw [show twoPi = 2 * Real.pi from rfl, Real.sin_two_pi, Real.cos_two_pi]
  norm_num [scale_zero_eq, add_vzero]

/-- C4 (amended): the loop sampler's position equals the documented
helix formula; its tangent is the normalized derivative of that position
(the three frame coefficients have exactly the sampled derivatives); the
eased angle's derivative vanishes at both ends; and, provided the pitch
is positive, the endpoint tangents equal the normalized entry forward
direction. -/
theorem c4_loop_sampler (f : BarrelRollFrame) (t : ℝ) :
    (sampleVerticalLoopAnalytically f t).point =
        ((f.entryPos.add
          (f.forward.scale (f.pitch * t + f.radius * Real.sin (loopTheta t)))).add
            (f.up.scale (f.radius * (1 - Real.cos (loopTheta t))))).add
          (f.right.scale (0.4 * f.radius * Real.sin (loopTheta t))) ∧
      (sampleVerticalLoopAnalytically f t).tangent = threeNormalize (loopVelocity f t) ∧
      HasDerivAt (fun u => f.pitch * u + f.radius * Real.sin (loopTheta u))
        (f.pitch + f.radius * Real.cos (loopTheta t) * loopDTheta t) t ∧
      HasDerivAt (fun u => f.radius * (1 - Real.cos (loopTheta u)))
        (f.radius * Real.sin (loopTheta t) * loopDTheta t) t ∧
      HasDerivAt (fun u => 0.4 * f.radius * Real.sin (loopTheta u))
        (f.radius * 0.4 * Real.cos (loopTheta t) * loopDTheta t) t ∧
      loopDTheta 0 = 0 ∧ loopDTheta 1 = 0 ∧
      (0 < f.pitch →
        (sampleVerticalLoopAnalytically f 0).tangent = threeNormalize f.forward ∧
        (sampleVerticalLoopAnalytically f 1).tangent = threeNormalize f.forward) := by
  refine ⟨?_, rfl, hasDerivAt_loopA f t, hasDerivAt_loopB f t, hasDerivAt_loopC f t,
    loopDTheta_zero, loopDTheta_one, ?_⟩
  · rw [sampleVerticalLoopAnalytically]
    dsimp only
    congr 1
    simp only [Vec3.scale, Vec3.eq_iff]
    refine ⟨by ring, by ring, by ring⟩
  · intro hp
    constructor
    · show threeNormalize (loopVelocity f 0) = threeNormalize f.forward
      rw [loopVelocity_zero, threeNormalize_scale_pos f.forward hp]
    · show threeNormalize (loopVelocity f 1) = threeNormalize f.forward
      rw [loopVelocity_one, threeNormalize_scale_pos f.forward hp]

/-- C4 counterexample: with pitch 0 (allowed by the claim's universal
quantification) the endpoint tangent is the zero vector, not the
normalized entry forward direction. -/
theorem c4_counterexample :
    (sampleVerticalLoopAnalytically c4Frame 0).tangent = vzero ∧
      threeNormalize c4Frame.forward = ⟨1, 0, 0⟩ ∧
      (vzero : Vec3) ≠ ⟨1, 0, 0⟩ := by
  refine ⟨?_, ?_, ?_⟩
  · show threeNormalize (loopVelocity c4Frame 0) = vzero
    rw [loopVelocity_zero]
    rw [show c4Frame.pitch = 0 from rfl, scale_zero_eq, threeNormalize_vzero]
  · rw [show c4Frame.forward = ⟨1, 0, 0⟩ from rfl]
    exact threeNormalize_xvec one_pos
  · simp [vzero, Vec3.eq_iff]

/-- Witness for the amended C4 at a frame with pitch 1 and `t = 1/3`. -/
theorem c4_witness :
    (0 : ℝ) < (1 : ℝ) ∧
      (sampleVerticalLoopAnalytically ⟨vzero, ⟨1, 0, 0⟩, ⟨0, 1, 0⟩, ⟨0, 0, 1⟩, 5, 1⟩ 0).tangent =
        threeNormalize (⟨1, 0, 0⟩ : Vec3) :=
  ⟨one_pos,
   ((c4_loop_sampler ⟨vzero, ⟨1, 0, 0⟩, ⟨0, 1, 0⟩, ⟨0, 0, 1⟩, 5, 1⟩
      (1 / 3)).2.2.2.2.2.2.2 one_pos).1⟩

/-- Witness for C9: the 2-point line track sampled at progress `-3`. -/
theorem c9_witness :
    2 ≤ linePtsTU.length ∧
      ∃ out, sampleHybridTrack (-3) (buildTrackSections linePtsTU [] false).sections
        (mkCurve linePtsTU false) [] linePtsTU false = some out :=
  ⟨by rw [show linePtsTU.length = 2 from rfl],
   c9_sample_total linePtsTU [] false (by rw [show linePtsTU.length = 2 from rfl]) (-3)⟩

end TU

namespace Phys

/-! ## C8: step is a no-op without a valid track -/

/-- C8: with fewer than 2 control points, `setTrack` stores no spline, and
`step` returns the engine with every field unchanged for every `dt`. -/
theorem c8_step_noop (e : Engine) (pts : List TrackPointInput) (looped : Bool) (dt : ℝ)
    (h : pts.length < 2) : step (setTrack e pts looped) dt = setTrack e pts looped := by
  rw [setTrack, if_pos h]
  rfl

/-- Witness for C8: a one-point track, `dt = 5`. -/
theorem c8_witness :
    [junkTPI].length < 2 ∧
      step (setTrack mkEngine [junkTPI] false) 5 = setTrack mkEngine [junkTPI] false :=
  ⟨by norm_num, c8_step_noop mkEngine [junkTPI] false 5 (by norm_num)⟩

/-! ## C10: effect of setSpeed -/

/-- C10 (amended): `setSpeed s` clamps the speed to `[0, 50]`, recomputes
the kinetic energy and the total energy from the unchanged potential
energy, and leaves progress, arc length, position, track sample and
potential energy alone; the velocity is re-aimed along the stored tangent
only when a spline is present, and left unchanged otherwise. -/
theorem c10_set_speed (e : Engine) (s : ℝ) :
    (setSpeed e s).state.speed = min (max s 0) 50 ∧
      (setSpeed e s).state.kineticEnergy =
        0.5 * e.mass * (setSpeed e s).state.speed * (setSpeed e s).state.speed ∧
      (setSpeed e s).state.totalEnergy =
        (setSpeed e s).state.kineticEnergy + e.state.potentialEnergy ∧
      (e.spline.isSome = true →
        (setSpeed e s).state.velocity =
          e.state.trackSample.tangent.scale ((setSpeed e s).state.speed)) ∧
      (e.spline.isSome = false → (setSpeed e s).state.velocity = e.state.velocity) ∧
      (setSpeed e s).state.progress = e.state.progress ∧
      (setSpeed e s).state.arcLength = e.state.arcLength ∧
      (setSpeed e s).state.position = e.state.position ∧
      (setSpeed e s).state.trackSample = e.state.trackSample ∧
      (setSpeed e s).state.potentialEnergy = e.state.potentialEnergy := by
  have hclamp : max 0 (min MAX_SPEED s) = min (max s 0) 50 := by
    rw [MAX_SPEED, max_def, min_def, max_def, min_def]
    split_ifs <;> linarith
  by_cases h : e.spline.isSome = true
  · simp only [setSpeed, if_pos h]
    refine ⟨hclamp, ?_, ?_, fun _ => trivial, ?_, ?_, ?_, ?_, ?_, ?_⟩
    all_goals try trivial
    intro hf
    rw [hf] at h
    exact absurd h Bool.false_ne_true
  · simp only [setSpeed, if_neg h]
    refine ⟨hclamp, ?_, ?_, ?_, fun _ => trivial, ?_, ?_, ?_, ?_, ?_⟩
    all_goals try trivial
    intro ht
    exact absurd ht h

/-- Counterexample to C10 as stated: with no track set, `setSpeed 5`
leaves the velocity at zero instead of re-aiming it along the stored
default tangent scaled by the clamped speed. -/
theorem c10_counterexample :
    (setSpeed mkEngine 5).state.velocity = vzero ∧
      (setSpeed mkEngine 5).state.trackSample.tangent.scale
        ((setSpeed mkEngine 5).state.speed) = ⟨5, 0, 0⟩ ∧
      (vzero : Vec3) ≠ ⟨5, 0, 0⟩ := by
  refine ⟨rfl, ?_, ?_⟩
  · have hs : (setSpeed mkEngine 5).state.speed = 5 := by
      have : (setSpeed mkEngine 5).state.speed = max 0 (min MAX_SPEED 5) := rfl
      rw [this, MAX_SPEED, min_def, max_def]
      norm_num
    have hts : (setSpeed mkEngine 5).state.trackSample = defaultSample := rfl
    rw [hts, hs]
    simp only [defaultSample, Vec3.scale, Vec3.eq_iff]
    norm_num
  · intro hcon
    rw [Vec3.eq_iff] at hcon
    exact absurd hcon.1 (by norm_num [vzero])

/-- Witness applying the C10 theorem at a concrete engine and speed. -/
theorem c10_witness :
    (setSpeed mkEngine 7).state.speed = min (max 7 0) 50 ∧
      (setSpeed mkEngine 7).state.kineticEnergy =
        0.5 * mkEngine.mass * (setSpeed mkEngine 7).state.speed *
          (setSpeed mkEngine 7).state.speed ∧
      (setSpeed mkEngine 7).state.totalEnergy =
        (setSpeed mkEngine 7).state.kineticEnergy + mkEngine.state.potentialEnergy ∧
      (mkEngine.spline.isSome = true →
        (setSpeed mkEngine 7).state.velocity =
          mkEngine.state.trackSample.tangent.scale ((setSpeed mkEngine 7).state.speed)) ∧
      (mkEngine.spline.isSome = false →
        (setSpeed mkEngine 7).state.velocity = mkEngine.state.velocity) ∧
      (setSpeed mkEngine 7).state.progress = mkEngine.state.progress ∧
      (setSpeed mkEngine 7).state.arcLength = mkEngine.state.arcLength ∧
      (setSpeed mkEngine 7).state.position = mkEngine.state.position ∧
      (setSpeed mkEngine 7).state.trackSample = mkEngine.state.trackSample ∧
      (setSpeed mkEngine 7).state.potentialEnergy = mkEngine.state.potentialEnergy :=
  c10_set_speed mkEngine 7

/-! ## Shared projections of finishStep and withSampledFlags -/

/-- The speed stored by `finishStep` is the clamp of the branch speed. -/
theorem finishStep_speed (e : Engine) (sp : TrackSpline) (sample : PTrackSample)
    (s0 dt : ℝ) :
    (finishStep e sp sample s0 dt).state.speed = max MIN_SPEED (min MAX_SPEED s0) := rfl

/-! ## C7: speed clamp of every substep -/

/-- C7 (amended): on a valid track every substep of the simulation ends
with the speed clamped into `[MIN_SPEED, MAX_SPEED] = [0.1, 50]`, on the
chain lift and off it alike. (`reset` and `setSpeed`, by contrast, can
leave the speed at exactly 0; see the counterexample.) -/
theorem c7_speed_clamp (e : Engine) (sp : TrackSpline) (dt : ℝ)
    (hsp : e.spline = some sp) :
    MIN_SPEED ≤ (stepInternal e dt).state.speed ∧
      (stepInternal e dt).state.speed ≤ MAX_SPEED := by
  simp only [stepInternal, hsp]
  split_ifs <;>
    rw [finishStep_speed] <;>
    exact ⟨le_max_left _ _,
      max_le (by rw [MIN_SPEED, MAX_SPEED]; norm_num) (min_le_left _ _)⟩

/-- Counterexample to C7 as stated: `reset` on a valid 2-point track
leaves the speed at exactly 0, below the positive floor. -/
theorem c7_counterexample :
    lineEngineReset.spline = some lineSplineStored ∧
      lineEngineReset.state.speed = 0 ∧ ¬(MIN_SPEED ≤ lineEngineReset.state.speed) := by
  refine ⟨rfl, rfl, ?_⟩
  rw [show lineEngineReset.state.speed = 0 from rfl, MIN_SPEED]
  norm_num

/-- Witness for the amended C7: one substep of the reset line engine. -/
theorem c7_witness :
    MIN_SPEED ≤ (stepInternal lineEngineReset (1 / 100)).state.speed ∧
      (stepInternal lineEngineReset (1 / 100)).state.speed ≤ MAX_SPEED :=
  c7_speed_clamp lineEngineReset lineSplineStored (1 / 100) rfl

/-! ## C5: chain-lift speed control -/

/-- C5 (amended): on the chain lift, starting from any speed between
`MIN_SPEED` and `CHAIN_LIFT_SPEED`, one substep of duration `dt ≥ 0`
changes the speed by at least 0 and at most
`CHAIN_LIFT_ACCELERATION·dt`. (Starting above `CHAIN_LIFT_SPEED` the
speed snaps to `CHAIN_LIFT_SPEED` instantly; see the counterexample.) -/
theorem c5_chain_lift (e : Engine) (sp : TrackSpline) (dt : ℝ)
    (hsp : e.spline = some sp)
    (hcl : e.hasChainLift = true)
    (hpr : e.state.progress < e.chainLiftEndProgress)
    (hmin : MIN_SPEED ≤ e.state.speed)
    (hmax : e.state.speed ≤ CHAIN_LIFT_SPEED)
    (hdt : 0 ≤ dt) :
    0 ≤ (stepInternal e dt).state.speed - e.state.speed ∧
      (stepInternal e dt).state.speed - e.state.speed ≤ CHAIN_LIFT_ACCELERATION * dt := by
  have hdt2 : 0 ≤ CHAIN_LIFT_ACCELERATION * dt := by
    rw [CHAIN_LIFT_ACCELERATION]
    nlinarith
  have honcl : (withSampledFlags e
      (getSampleAtProgress sp e.state.progress)).state.isOnChainLift = true := by
    simp only [withSampledFlags]
    rw [hcl, if_pos hpr]
    rfl
  simp only [stepInternal, hsp]
  rw [if_pos honcl, finishStep_speed]
  by_cases hlt : e.state.speed < CHAIN_LIFT_SPEED
  · rw [if_pos hlt]
    have hinmin : MIN_SPEED ≤ min (e.state.speed + CHAIN_LIFT_ACCELERATION * dt)
        CHAIN_LIFT_SPEED :=
      le_min (by linarith) (le_trans hmin hmax)
    have hinmax : min (e.state.speed + CHAIN_LIFT_ACCELERATION * dt) CHAIN_LIFT_SPEED ≤
        MAX_SPEED :=
      le_trans (min_le_right _ _) (by rw [CHAIN_LIFT_SPEED, MAX_SPEED]; norm_num)
    rw [min_eq_right hinmax, max_eq_right hinmin]
    constructor
    · have : e.state.speed ≤ min (e.state.speed + CHAIN_LIFT_ACCELERATION * dt)
          CHAIN_LIFT_SPEED := le_min (by linarith) hmax
      linarith
    · have := min_le_left (e.state.speed + CHAIN_LIFT_ACCELERATION * dt) CHAIN_LIFT_SPEED
      linarith
  · rw [if_neg hlt]
    have hs : e.state.speed = CHAIN_LIFT_SPEED := le_antisymm hmax (not_lt.mp hlt)
    have h1 : min MAX_SPEED CHAIN_LIFT_SPEED = CHAIN_LIFT_SPEED :=
      min_eq_right (by rw [CHAIN_LIFT_SPEED, MAX_SPEED]; norm_num)
    have h2 : max MIN_SPEED CHAIN_LIFT_SPEED = CHAIN_LIFT_SPEED :=
      max_eq_right (by rw [CHAIN_LIFT_SPEED, MIN_SPEED]; norm_num)
    rw [h1, h2, hs]
    constructor
    · linarith
    · linarith

/-- Counterexample to C5 as stated: entering the chain lift at speed 10,
one substep of 10 ms snaps the speed down to 2.5 m/s, a change of
magnitude 7.5 where the claimed bound is 0.005. -/
theorem c5_counterexample :
    c5Engine.state.speed = 10 ∧
      (stepInternal c5Engine (1 / 100)).state.speed = 5 / 2 ∧
      ¬(|(stepInternal c5Engine (1 / 100)).state.speed - c5Engine.state.speed| ≤
          CHAIN_LIFT_ACCELERATION * (1 / 100)) := by
  have hs10 : c5Engine.state.speed = 10 := by
    have h : c5Engine.state.speed = max 0 (min MAX_SPEED 10) := rfl
    rw [h, MAX_SPEED, min_def, max_def]
    norm_num
  have honcl : (withSampledFlags c5Engine
      (getSampleAtProgress lineSplineStored
        c5Engine.state.progress)).state.isOnChainLift = true := by
    simp only [withSampledFlags]
    rw [show c5Engine.hasChainLift = true from rfl]
    rw [if_pos (show c5Engine.state.progress < c5Engine.chainLiftEndProgress by
      rw [show c5Engine.state.progress = 0 from rfl,
        show c5Engine.chainLiftEndProgress = 0.2 from rfl]
      norm_num)]
    rfl
  have hstep : (stepInternal c5Engine (1 / 100)).state.speed = 5 / 2 := by
    simp only [stepInternal, show c5Engine.spline = some lineSplineStored from rfl]
    rw [if_pos honcl, if_neg (by rw [hs10, CHAIN_LIFT_SPEED]; norm_num), finishStep_speed]
    rw [CHAIN_LIFT_SPEED, MIN_SPEED, MAX_SPEED, min_def, max_def]
    norm_num
  refine ⟨hs10, hstep, ?_⟩
  rw [hstep, hs10, CHAIN_LIFT_ACCELERATION]
  rw [show (5 / 2 : ℝ) - 10 = -(15 / 2) by norm_num, abs_neg,
    abs_of_nonneg (by norm_num : (0 : ℝ) ≤ 15 / 2)]
  norm_num

/-- Witness for the amended C5: the line chain-lift engine at speed 1,
substep of 10 ms. -/
theorem c5_witness :
    0 ≤ (stepInternal c5WitnessEngine (1 / 100)).state.speed -
        c5WitnessEngine.state.speed ∧
      (stepInternal c5WitnessEngine (1 / 100)).state.speed -
          c5WitnessEngine.state.speed ≤ CHAIN_LIFT_ACCELERATION * (1 / 100) :=
  c5_chain_lift c5WitnessEngine lineSplineStored (1 / 100) rfl rfl
    (by rw [show c5WitnessEngine.state.progress = 0 from rfl,
      show c5WitnessEngine.chainLiftEndProgress = 0.2 from rfl]; norm_num)
    (by rw [show c5WitnessEngine.state.speed = max 0 (min MAX_SPEED 1) from rfl,
      MIN_SPEED, MAX_SPEED, min_def, max_def]; norm_num)
    (by rw [show c5WitnessEngine.state.speed = max 0 (min MAX_SPEED 1) from rfl,
      CHAIN_LIFT_SPEED, MAX_SPEED, min_def, max_def]; norm_num)
    (by norm_num)

/-! ## C1: energy bookkeeping of the free-running branch -/

/-- C1 (amended): in every free-running substep the recorded total energy
becomes the minimum of its previous value and the current
potential + kinetic energy after the Euler update (hence is
non-increasing); the final speed is the `[0.1, 50]` clamp of the
overshoot-corrected speed; and when the Euler update overshoots the
energy budget by more than 1% with a positive remaining kinetic budget,
the corrected speed is exactly `sqrt(2·(totalEnergy − potential)/mass)`,
which restores `kinetic + potential = totalEnergy`. -/
theorem c1_energy (e : Engine) (sp : TrackSpline) (dt : ℝ)
    (hsp : e.spline = some sp)
    (hfree : (withSampledFlags e
      (getSampleAtProgress sp e.state.progress)).state.isOnChainLift = false) :
    ((stepInternal e dt).state.totalEnergy =
        min e.state.totalEnergy
          (e.mass * GRAVITY * (getSampleAtProgress sp e.state.progress).position.y +
            0.5 * e.mass *
              freeSpeedEuler (withSampledFlags e (getSampleAtProgress sp e.state.progress))
                (getSampleAtProgress sp e.state.progress) dt *
              freeSpeedEuler (withSampledFlags e (getSampleAtProgress sp e.state.progress))
                (getSampleAtProgress sp e.state.progress) dt)) ∧
      ((stepInternal e dt).state.totalEnergy ≤ e.state.totalEnergy) ∧
      ((stepInternal e dt).state.speed =
        max MIN_SPEED (min MAX_SPEED
          (freeSpeedCorrected (withSampledFlags e (getSampleAtProgress sp e.state.progress))
            (getSampleAtProgress sp e.state.progress) dt))) ∧
      (0 < e.mass →
        e.state.totalEnergy * 1.01 <
            e.mass * GRAVITY * (getSampleAtProgress sp e.state.progress).position.y +
              0.5 * e.mass *
                freeSpeedEuler (withSampledFlags e (getSampleAtProgress sp e.state.progress))
                  (getSampleAtProgress sp e.state.progress) dt *
                freeSpeedEuler (withSampledFlags e (getSampleAtProgress sp e.state.progress))
                  (getSampleAtProgress sp e.state.progress) dt →
          0 < e.state.totalEnergy -
              e.mass * GRAVITY * (getSampleAtProgress sp e.state.progress).position.y →
            freeSpeedCorrected (withSampledFlags e (getSampleAtProgress sp e.state.progress))
                (getSampleAtProgress sp e.state.progress) dt =
              Real.sqrt (2 * (e.state.totalEnergy -
                e.mass * GRAVITY *
                  (getSampleAtProgress sp e.state.progress).position.y) / e.mass) ∧
              0.5 * e.mass *
                  freeSpeedCorrected (withSampledFlags e
                    (getSampleAtProgress sp e.state.progress))
                    (getSampleAtProgress sp e.state.progress) dt *
                  freeSpeedCorrected (withSampledFlags e
                    (getSampleAtProgress sp e.state.progress))
                    (getSampleAtProgress sp e.state.progress) dt +
                e.mass * GRAVITY * (getSampleAtProgress sp e.state.progress).position.y =
              e.state.totalEnergy) := by
  have hne : ¬((withSampledFlags e
      (getSampleAtProgress sp e.state.progress)).state.isOnChainLift = true) := by
    rw [hfree]
    exact Bool.false_ne_true
  refine ⟨?_, ?_, ?_, ?_⟩
  · simp only [stepInternal, hsp]
    rw [if_neg hne]
    rfl
  · simp only [stepInternal, hsp]
    rw [if_neg hne]
    exact min_le_left _ _
  · simp only [stepInternal, hsp]
    rw [if_neg hne]
    rw [finishStep_speed]
  · intro hm hover hpos
    have hcorr : freeSpeedCorrected (withSampledFlags e
        (getSampleAtProgress sp e.state.progress))
        (getSampleAtProgress sp e.state.progress) dt =
        Real.sqrt (2 * (e.state.totalEnergy -
          e.mass * GRAVITY * (getSampleAtProgress sp e.state.progress).position.y) /
            e.mass) := by
      have hTE : (withSampledFlags e
          (getSampleAtProgress sp e.state.progress)).state.totalEnergy =
          e.state.totalEnergy := rfl
      have hM : (withSampledFlags e (getSampleAtProgress sp e.state.progress)).mass =
          e.mass := rfl
      rw [freeSpeedCorrected, hTE, hM]
      rw [if_pos hover]
      simp only []
      rw [if_pos hpos]
    refine ⟨hcorr, ?_⟩
    rw [hcorr]
    have hX : 0 ≤ 2 * (e.state.totalEnergy -
        e.mass * GRAVITY * (getSampleAtProgress sp e.state.progress).position.y) / e.mass :=
      div_nonneg (by linarith) hm.le
    rw [mul_assoc (0.5 * e.mass), Real.mul_self_sqrt hX]
    field_simp
    ring

/-! ## Closed forms on the stored 2-point line spline -/

/-- The engine's normalize maps a positive-x vector to the unit x vector
whenever its length clears the `1e-10` guard. -/
theorem pvNormalize_xvec {d : ℝ} (hd : 1e-10 ≤ d) :
    pvNormalize ⟨d, 0, 0⟩ = ⟨1, 0, 0⟩ := by
  have hd0 : 0 < d := lt_of_lt_of_le (by norm_num) hd
  have hl : (Vec3.mk d 0 0).length = d := by
    rw [Vec3.length]
    simp only [Vec3.dot]
    rw [show d * d + 0 * 0 + 0 * 0 = d ^ 2 by ring, Real.sqrt_sq hd0.le]
  rw [pvNormalize, if_neg (by rw [hl]; exact not_lt.mpr hd), hl]
  simp only [Vec3.scale, Vec3.eq_iff]
  norm_num
  field_simp

theorem jsSign_zero : jsSign 0 = 0 := by
  rw [jsSign]
  norm_num

theorem lerp_zero (a b : Vec3) : a.lerp b 0 = a := by
  simp [Vec3.lerp, Vec3.add, Vec3.sub, Vec3.scale, Vec3.eq_iff]

theorem sampleAt_position (sp : TrackSpline) (t : ℝ) :
    (sampleAt sp t).position = getPointRaw sp t := rfl

theorem sampleAt_tangent (sp : TrackSpline) (t : ℝ) :
    (sampleAt sp t).tangent = getTangentRaw sp t := rfl

/-- The first segment of the stored line spline is the cubic `xpoly`
along the x axis. -/
theorem getPointRaw_line (t : ℝ) (h0 : 0 ≤ t) (h1 : t < 1) :
    getPointRaw lineSplineStored t = ⟨xpoly t, 0, 0⟩ := by
  have htc : max 0 (min 1 t) = t := by rw [min_eq_right h1.le, max_eq_right h0]
  have hfl : ⌊t⌋ = 0 := by
    rw [Int.floor_eq_zero_iff]
    exact ⟨h0, h1⟩
  simp only [getPointRaw, lineSplineStored]
  norm_num [htc, hfl, controlPts, splineIdx, List.getD, catmull05, xpoly, Vec3.eq_iff]
  ring

theorem range_map_getD {α : Type} (n k : ℕ) (f : ℕ → α) (d : α) (h : k < n) :
    ((List.range n).map f).getD k d = f k := by
  rw [List.getD_eq_getElem?_getD, List.getElem?_map, List.getElem?_range h]
  rfl

/-- Length of the precomputed sample table of the stored line spline. -/
theorem samplesList_line_len :
    (samplesList lineSplineStored).length = numSamples lineSplineStored + 1 := by
  rw [samplesList, if_neg (by norm_num [lineSplineStored])]
  rw [List.length_map, List.length_range]

/-- The tangent of the stored line spline at parameter 0. -/
theorem getTangentRaw_line_zero : getTangentRaw lineSplineStored 0 = ⟨1, 0, 0⟩ := by
  rw [getTangentRaw]
  rw [show min 1 ((0 : ℝ) + 0.0001) = 0.0001 by norm_num,
    show max 0 ((0 : ℝ) - 0.0001) = 0 by norm_num]
  rw [getPointRaw_line 0.0001 (by norm_num) (by norm_num),
    getPointRaw_line 0 le_rfl (by norm_num)]
  rw [show (Vec3.mk (xpoly 0.0001) 0 0).sub ⟨xpoly 0, 0, 0⟩ =
    ⟨xpoly 0.0001 - xpoly 0, 0, 0⟩ by simp [Vec3.sub]]
  exact pvNormalize_xvec (by norm_num [xpoly])

/-- Position and tangent of the progress-0 sample of the stored line
spline: the origin, pointing along positive x. -/
theorem line_sample0 :
    (getSampleAtProgress lineSplineStored 0).position = ⟨0, 0, 0⟩ ∧
      (getSampleAtProgress lineSplineStored 0).tangent = ⟨1, 0, 0⟩ := by
  have hN : 100 ≤ numSamples lineSplineStored := le_max_left _ _
  simp only [getSampleAtProgress]
  rw [show max 0 (min 1 (0 : ℝ)) = 0 by norm_num]
  rw [if_neg (by rw [samplesList_line_len]; exact Nat.succ_ne_zero _)]
  rw [zero_mul, Int.floor_zero]
  rw [if_neg (by
    rw [samplesList_line_len]
    push_cast
    omega)]
  have hgd : (samplesList lineSplineStored).getD (Int.toNat 0) junkSample =
      sampleAt lineSplineStored 0 := by
    rw [samplesList, if_neg (by norm_num [lineSplineStored])]
    rw [show Int.toNat 0 = 0 from rfl]
    rw [range_map_getD _ 0 _ _ (Nat.succ_pos _)]
    norm_num
  rw [hgd]
  rw [show ((0 : ℝ) - ((0 : ℤ) : ℝ)) = 0 by norm_num]
  rw [lerp_zero, lerp_zero]
  constructor
  · rw [sampleAt_position, getPointRaw_line 0 le_rfl (by norm_num)]
    rw [show xpoly 0 = 0 by norm_num [xpoly]]
  · rw [sampleAt_tangent, getTangentRaw_line_zero]
    exact pvNormalize_xvec (by norm_num)

theorem finishStep_kinetic (e : Engine) (sp : TrackSpline) (sample : PTrackSample)
    (s0 dt : ℝ) :
    (finishStep e sp sample s0 dt).state.kineticEnergy =
      0.5 * e.mass * (max MIN_SPEED (min MAX_SPEED s0)) *
        (max MIN_SPEED (min MAX_SPEED s0)) := rfl

theorem finishStep_potential (e : Engine) (sp : TrackSpline) (sample : PTrackSample)
    (s0 dt : ℝ) :
    (finishStep e sp sample s0 dt).state.potentialEnergy =
      e.mass * GRAVITY * sample.position.y := rfl

/-- Counterexample to C1 as stated: from rest on the flat line track the
recorded total energy is 0, but one free-running substep ends at the
clamped floor speed 0.1 m/s, leaving kinetic + potential = 4 J, which
exceeds 1.01 times the recorded total energy. -/
theorem c1_counterexample :
    lineEngineReset.state.totalEnergy = 0 ∧
      (stepInternal lineEngineReset (1 / 100)).state.kineticEnergy +
          (stepInternal lineEngineReset (1 / 100)).state.potentialEnergy = 4 ∧
      ¬((stepInternal lineEngineReset (1 / 100)).state.kineticEnergy +
          (stepInternal lineEngineReset (1 / 100)).state.potentialEnergy ≤
        1.01 * lineEngineReset.state.totalEnergy) := by
  have hy : (getSampleAtProgress lineSplineStored 0).position.y = 0 := by
    rw [line_sample0.1]
  have hTE : lineEngineReset.state.totalEnergy = 0 := by
    have h : lineEngineReset.state.totalEnergy =
        lineEngine.mass * GRAVITY * (getSampleAtProgress lineSplineStored 0).position.y := rfl
    rw [h, hy, mul_zero]
  have hdot : (freeNetForce
        (withSampledFlags lineEngineReset (getSampleAtProgress lineSplineStored 0))
        (getSampleAtProgress lineSplineStored 0)).dot
      (getSampleAtProgress lineSplineStored 0).tangent = 0 := by
    rw [freeNetForce]
    simp only [calculateForces]
    rw [show (withSampledFlags lineEngineReset
      (getSampleAtProgress lineSplineStored 0)).state.speed = 0 from rfl]
    rw [jsSign_zero]
    rw [show (withSampledFlags lineEngineReset
      (getSampleAtProgress lineSplineStored 0)).state.isOnChainLift = false from rfl]
    rw [if_neg Bool.false_ne_true]
    rw [show -(0.5 * AIR_DENSITY * CAR_FRONTAL_AREA * CAR_DRAG_COEFFICIENT * 0 * 0) * 0 =
      0 by ring]
    rw [show -(ROLLING_RESISTANCE_COEF *
      ((withSampledFlags lineEngineReset (getSampleAtProgress lineSplineStored 0)).mass *
        GRAVITY *
        Real.cos (Real.arctan ((getSampleAtProgress lineSplineStored 0).grade / 100)))) * 0 =
      0 by ring]
    rw [scale_zero_eq, TU.add_vzero, TU.add_vzero, TU.add_vzero]
    rw [line_sample0.2]
    simp [Vec3.dot]
  have heuler : freeSpeedEuler
      (withSampledFlags lineEngineReset (getSampleAtProgress lineSplineStored 0))
      (getSampleAtProgress lineSplineStored 0) (1 / 100) = 0 := by
    rw [freeSpeedEuler, hdot]
    rw [show (withSampledFlags lineEngineReset
      (getSampleAtProgress lineSplineStored 0)).state.speed = 0 from rfl]
    norm_num
  have hcorr : freeSpeedCorrected
      (withSampledFlags lineEngineReset (getSampleAtProgress lineSplineStored 0))
      (getSampleAtProgress lineSplineStored 0) (1 / 100) = 0 := by
    rw [freeSpeedCorrected]
    simp only []
    rw [heuler]
    rw [show (withSampledFlags lineEngineReset
      (getSampleAtProgress lineSplineStored 0)).state.totalEnergy = 0 from hTE]
    rw [show (withSampledFlags lineEngineReset
      (getSampleAtProgress lineSplineStored 0)).mass = lineEngineReset.mass from rfl]
    rw [hy, mul_zero]
    rw [if_neg (by norm_num)]
  have hfree : ¬((withSampledFlags lineEngineReset
      (getSampleAtProgress lineSplineStored
        lineEngineReset.state.progress)).state.isOnChainLift = true) := by
    rw [show (withSampledFlags lineEngineReset
      (getSampleAtProgress lineSplineStored
        lineEngineReset.state.progress)).state.isOnChainLift = false from rfl]
    exact Bool.false_ne_true
  have hKE : (stepInternal lineEngineReset (1 / 100)).state.kineticEnergy = 4 := by
    simp only [stepInternal,
      show lineEngineReset.spline = some lineSplineStored from rfl]
    rw [if_neg hfree]
    rw [show lineEngineReset.state.progress = (0 : ℝ) from rfl]
    rw [finishStep_kinetic, hcorr]
    rw [show ({ withSampledFlags lineEngineReset (getSampleAtProgress lineSplineStored 0) with
        state := { (withSampledFlags lineEngineReset
          (getSampleAtProgress lineSplineStored 0)).state with
            netForce := freeNetForce
              (withSampledFlags lineEngineReset (getSampleAtProgress lineSplineStored 0))
              (getSampleAtProgress lineSplineStored 0)
            totalEnergy := min lineEngineReset.state.totalEnergy
              (lineEngineReset.mass * GRAVITY *
                  (getSampleAtProgress lineSplineStored 0).position.y +
                0.5 * lineEngineReset.mass *
                  freeSpeedEuler (withSampledFlags lineEngineReset
                    (getSampleAtProgress lineSplineStored 0))
                    (getSampleAtProgress lineSplineStored 0) (1 / 100) *
                  freeSpeedEuler (withSampledFlags lineEngineReset
                    (getSampleAtProgress lineSplineStored 0))
                    (getSampleAtProgress lineSplineStored 0) (1 / 100)) } } : Engine).mass =
      CAR_MASS + PASSENGER_MASS * PASSENGERS from rfl]
    rw [MIN_SPEED, MAX_SPEED, min_def, max_def]
    norm_num [CAR_MASS, PASSENGER_MASS, PASSENGERS]
  have hPE : (stepInternal lineEngineReset (1 / 100)).state.potentialEnergy = 0 := by
    simp only [stepInternal,
      show lineEngineReset.spline = some lineSplineStored from rfl]
    rw [if_neg hfree]
    rw [show lineEngineReset.state.progress = (0 : ℝ) from rfl]
    rw [finishStep_potential, hy, mul_zero]
  refine ⟨hTE, ?_, ?_⟩
  · rw [hKE, hPE]
    norm_num
  · rw [hKE, hPE, hTE]
    norm_num

/-- Witness for the amended C1: one free substep of the reset line engine
does not increase the recorded total energy. -/
theorem c1_witness :
    (stepInternal lineEngineReset (1 / 100)).state.totalEnergy ≤
      lineEngineReset.state.totalEnergy :=
  (c1_energy lineEngineReset lineSplineStored (1 / 100) rfl rfl).2.1

end Phys

end RC
